import Mathlib

/-!
# echo-base-logger: template renderer and emission policy

A shallow embedding of `config/logger_config.go` and `base_logger.go`.

Modelling conventions
* A Go `string` / `[]byte` is a `List Char` (`GoString`): the text is taken to be valid
  UTF-8, and every needle the code searches for (`${`, `}`, `localhost`, the tag prefixes)
  is ASCII, so searching and slicing by character agrees with Go's byte-wise operations.
  Byte counts returned by writers are computed from the UTF-8 width of each character.
* A Go `error` is its message (`GoError`); `nil` is `none`.
* `time.Time` is an integer number of nanoseconds on one time line (`Time`), `time.Duration`
  and every `int64` are integers kept inside the signed 64-bit range explicitly.
* A runtime panic is `none` in an `Option` result.
* Library code the repository calls (fasttemplate, gommon/color, strconv, encoding/json,
  net/textproto, time) is modelled from the behaviour of those libraries; what the claims
  do not depend on (time layouts, `Duration.String`) is a field of `Env`.
-/

namespace EchoBaseLogger

/-- A Go string or byte slice. -/
abbrev GoString := List Char

/-- A Go error value, represented by its message. -/
abbrev GoError := GoString

/-- An instant: nanoseconds since the Unix epoch, on an unbounded time line. -/
abbrev Time := Int

/-! ## strings / bytes -/

/-- Go's `len` of a string: its number of UTF-8 bytes. -/
def len (s : GoString) : Nat := (s.map Char.utf8Size).sum

/-- `strings.HasPrefix`: `len(s) >= len(prefix) && s[:len(prefix)] == prefix`. -/
def HasPrefix (s pre : GoString) : Bool :=
  decide (pre.length ≤ s.length) && decide (s.take pre.length = pre)

/-- `strings.Index` / `bytes.Index`: position of the first occurrence of `sep` in `s`,
`none` for Go's `-1`. -/
def Index : GoString → GoString → Option Nat
  | [], sep => if HasPrefix [] sep then some 0 else none
  | c :: r, sep =>
    if HasPrefix (c :: r) sep then some 0
    else match Index r sep with
      | some i => some (i + 1)
      | none => none

/-- `strings.Contains`: `Index(s, substr) >= 0`. -/
def Contains (s substr : GoString) : Bool := (Index s substr).isSome

/-- Loop of `bytes.Count` for a non-empty separator: count the non-overlapping
occurrences, each found with `Index`. -/
def countLoop : Nat → GoString → GoString → Nat
  | 0, _, _ => 0
  | fuel + 1, s, sep =>
    match Index s sep with
    | none => 0
    | some i => countLoop fuel (s.drop (i + sep.length)) sep + 1

/-- `bytes.Count`. For an empty separator Go returns the rune count plus one. -/
def Count (s sep : GoString) : Nat :=
  if sep = [] then s.length + 1 else countLoop (s.length + 1) s sep

/-- `strconv.FormatInt(i, 10)`, also what `fmt` prints for an `int` under `%v`. -/
def FormatInt (i : Int) : GoString :=
  if i < 0 then '-' :: Nat.toDigits 10 i.natAbs else Nat.toDigits 10 i.natAbs

/-! ## fasttemplate -/

/-- `fasttemplate.Template`: the format string, its literal segments and its tag names. -/
structure Template where
  template : GoString
  startTag : GoString
  endTag : GoString
  texts : List GoString
  tags : List GoString
  deriving DecidableEq

/-- Outcome of the scanning loop of `Template.Reset`. -/
inductive ScanResult where
  | ok (texts tags : List GoString)
  | missingEnd
  | outOfFuel

/-- The `for` loop of `Template.Reset`: cut `s` at the next start tag, then at the next
end tag, collecting the literal before the start tag and the tag name between the two.
`texts` and `tags` are accumulated in order. Every round consumes the start tag, so
`len(s) + 1` rounds always suffice. -/
def resetLoop : Nat → GoString → GoString → GoString → List GoString → List GoString → ScanResult
  | 0, _, _, _, _, _ => ScanResult.outOfFuel
  | fuel + 1, s, a, b, texts, tags =>
    match Index s a with
    | none => ScanResult.ok (texts ++ [s]) tags
    | some n =>
      let texts := texts ++ [s.take n]
      let s := s.drop (n + a.length)
      match Index s b with
      | none => ScanResult.missingEnd
      | some n =>
        let tags := tags ++ [s.take n]
        resetLoop fuel (s.drop (n + b.length)) a b texts tags

/-- `fasttemplate.NewTemplate` (`Template.Reset` on a fresh template). `none` stands for
the error return "Cannot find end tag" and for the panics on an empty start or end tag. -/
def NewTemplate (template startTag endTag : GoString) : Option Template :=
  if startTag = [] then none
  else if endTag = [] then none
  else if Count template startTag = 0 then
    some { template := template, startTag := startTag, endTag := endTag, texts := [], tags := [] }
  else
    match resetLoop (template.length + 1) template startTag endTag [] [] with
    | ScanResult.ok texts tags =>
      some { template := template, startTag := startTag, endTag := endTag,
             texts := texts, tags := tags }
    | ScanResult.missingEnd => none
    | ScanResult.outOfFuel => none

/-- `fasttemplate.New`: as `NewTemplate`, but an error becomes a panic (`none`). -/
def New (template startTag endTag : GoString) : Option Template :=
  NewTemplate template startTag endTag

/-- The start tag `NewLoggerConfig` passes to `fasttemplate.New`. -/
def startTag : GoString := "$\x7b".toList

/-- The end tag `NewLoggerConfig` passes to `fasttemplate.New`. -/
def endTag : GoString := "\x7d".toList

/-! ## strconv / time / encoding/json / gommon color / net/textproto -/

/-- Conversion to `int64`: wrap-around into the signed 64-bit range. -/
def wrapInt64 (i : Int) : Int := (i + 2 ^ 63) % 2 ^ 64 - 2 ^ 63

/-- The largest `time.Duration`, `1<<63 - 1` nanoseconds. -/
def maxDuration : Int := 2 ^ 63 - 1

/-- The smallest `time.Duration`, `-1 << 63` nanoseconds. -/
def minDuration : Int := -(2 ^ 63)

/-- `Time.Sub`: the duration `t - u` in nanoseconds; when the difference does not fit a
`Duration` the maximum (or minimum) duration is returned. -/
def Time.Sub (t u : Time) : Int :=
  if t - u > maxDuration then maxDuration
  else if t - u < minDuration then minDuration
  else t - u

/-- `Time.Unix`: whole seconds since the Unix epoch. -/
def Time.Unix (t : Time) : Int := t / 1000000000

/-- `Time.UnixNano`: nanoseconds since the Unix epoch as an `int64`. -/
def Time.UnixNano (t : Time) : Int := wrapInt64 t

/-- The layout `time.RFC3339`. -/
def RFC3339 : GoString := "2006-01-02T15:04:05Z07:00".toList

/-- The layout `time.RFC3339Nano`. -/
def RFC3339Nano : GoString := "2006-01-02T15:04:05.999999999Z07:00".toList

/-- What the renderer takes from its surroundings: the successive readings of
`time.Now()` and the two formatting routines of package `time`. -/
structure Env where
  /-- The `k`-th reading of `time.Now()` since the start of the run. -/
  now : Nat → Time
  /-- `Time.Format(layout)`. -/
  format : Time → GoString → GoString
  /-- `Duration.String()`. -/
  durationString : Int → GoString

/-- Lower-case hexadecimal digit, the table `hex` of encoding/json. -/
def hexDigit (n : Nat) : Char := Nat.digitChar (n % 16)

/-- How encoding/json writes one character of a string (HTML escaping on, as
`json.Marshal` has it): quote and backslash get a backslash, the control characters
their short or `\u00xx` form, `<`, `>`, `&` and U+2028, U+2029 a `\u` escape, everything
else is copied. The short forms for backspace and form feed are those of Go 1.22 and
later; older toolchains write `\u0008` and `\u000c` there. -/
def jsonEscapeRune (c : Char) : GoString :=
  if c = '\\' ∨ c = '"' then ['\\', c]
  else if c = Char.ofNat 8 then ['\\', 'b']
  else if c = Char.ofNat 12 then ['\\', 'f']
  else if c = '\n' then ['\\', 'n']
  else if c = '\r' then ['\\', 'r']
  else if c = '\t' then ['\\', 't']
  else if c.toNat < 32 ∨ c = '<' ∨ c = '>' ∨ c = '&' then
    ['\\', 'u', '0', '0', hexDigit (c.toNat / 16), hexDigit c.toNat]
  else if c.toNat = 8232 ∨ c.toNat = 8233 then
    ['\\', 'u', '2', '0', '2', hexDigit c.toNat]
  else [c]

/-- The body of a JSON string literal: every character escaped in turn. -/
def jsonEscape (s : GoString) : GoString := s.flatMap jsonEscapeRune

/-- `json.Marshal` of a Go string: the escaped body between two quote characters. -/
def jsonMarshalString (s : GoString) : GoString := ['"'] ++ jsonEscape s ++ ['"']

/-- Go's slice expression `b[lo:hi]`. -/
def slice (b : GoString) (lo hi : Nat) : GoString := (b.take hi).drop lo

/-- `color.Color` of gommon: only its `disabled` flag matters here. -/
structure Color where
  disabled : Bool
  deriving DecidableEq

/-- `Color.SetOutput`: colouring is switched off unless the writer is a terminal file. -/
def Color.SetOutput (c : Color) (isTerminal : Bool) : Color :=
  if !isTerminal then { c with disabled := true } else c

/-- `color.New`: a fresh colorer, its output set to standard output. -/
def colorNew (stdoutIsTerminal : Bool) : Color :=
  Color.SetOutput { disabled := false } stdoutIsTerminal

/-- The closure `outer(n)` of gommon/color applied to an `int` without extra styles:
the plain `%v` print when disabled, otherwise the print wrapped in the ANSI sequence of
colour `n` and the reset sequence. -/
def Color.outer (n : GoString) (c : Color) (msg : Int) : GoString :=
  if c.disabled then FormatInt msg
  else "\x1b[".toList ++ n ++ "m".toList ++ FormatInt msg ++ "\x1b[0m".toList

/-- `Color.Red`. -/
def Color.Red (c : Color) (msg : Int) : GoString := Color.outer "31".toList c msg

/-- `Color.Green`. -/
def Color.Green (c : Color) (msg : Int) : GoString := Color.outer "32".toList c msg

/-- `Color.Yellow`. -/
def Color.Yellow (c : Color) (msg : Int) : GoString := Color.outer "33".toList c msg

/-- `Color.Cyan`. -/
def Color.Cyan (c : Color) (msg : Int) : GoString := Color.outer "36".toList c msg

/-- The token characters of a header field name (`validHeaderFieldByte`). -/
def validHeaderFieldByte (c : Char) : Bool :=
  c.isAlphanum || decide (c ∈ [Char.ofNat 33, Char.ofNat 35, Char.ofNat 36, Char.ofNat 37,
    Char.ofNat 38, Char.ofNat 39, Char.ofNat 42, Char.ofNat 43, Char.ofNat 45, Char.ofNat 46,
    Char.ofNat 94, Char.ofNat 95, Char.ofNat 96, Char.ofNat 124, Char.ofNat 126])

/-- The rewriting loop of `canonicalMIMEHeaderKey`: upper case for the first letter and
for a letter after a dash, lower case for the others. -/
def canonLoop : Bool → GoString → GoString
  | _, [] => []
  | upper, c :: r =>
    let c1 :=
      if upper && decide (97 ≤ c.toNat) && decide (c.toNat ≤ 122) then Char.ofNat (c.toNat - 32)
      else if !upper && decide (65 ≤ c.toNat) && decide (c.toNat ≤ 90) then Char.ofNat (c.toNat + 32)
      else c
    c1 :: canonLoop (c1 == '-') r

/-- `textproto.CanonicalMIMEHeaderKey`: a key made of token characters only is put in
canonical case, any other key is returned unchanged. -/
def CanonicalMIMEHeaderKey (s : GoString) : GoString :=
  if s.all validHeaderFieldByte then canonLoop true s else s

/-- `http.Header`, a Go map from canonical key to the list of values. -/
abbrev Header := GoString → Option (List GoString)

/-- `Header.Get`: the first value stored under the canonical form of `key`, or `""`. -/
def Header.Get (h : Header) (key : GoString) : GoString :=
  match h (CanonicalMIMEHeaderKey key) with
  | some (v :: _) => v
  | _ => []

/-! ## request, response and context -/

/-- `url.URL`, as far as the logger reads it. -/
structure URL where
  Path : GoString

/-- `http.Request`, as far as the logger reads it. -/
structure Request where
  Method : GoString
  Proto : GoString
  Host : GoString
  RequestURI : GoString
  URL : URL
  Header : Header

/-- `Request.Referer`. -/
def Request.Referer (r : Request) : GoString := Header.Get r.Header "Referer".toList

/-- `Request.UserAgent`. -/
def Request.UserAgent (r : Request) : GoString := Header.Get r.Header "User-Agent".toList

/-- `http.Cookie`. -/
structure Cookie where
  Name : GoString
  Value : GoString

/-- The function value handed to `Response.After` by `BaseLogger`, as the variables it
captures: the request's own context `c` (by identity) and `startTime`. The
`*LoggerConfig` it also captures is the one of the `World`. -/
structure HookClosure where
  c : Nat
  startTime : Time
  deriving DecidableEq

/-- `echo.Response`, as far as the logger and the middleware use it. -/
structure Response where
  Status : Int
  Size : Int
  header : Header
  afterFuncs : List HookClosure
  Committed : Bool

/-- An `echo.Context` object: the request/response pair it wraps and the results of
the interface methods the logger calls. -/
structure Context where
  request : Request
  response : Response
  RealIP : GoString
  QueryParam : GoString → GoString
  FormValue : GoString → GoString
  Cookie : GoString → Except GoError Cookie

/-! ## config/logger_config.go -/

/-- `echo.HeaderXRequestID`. -/
def HeaderXRequestID : GoString := "X-Request-ID".toList

/-- `echo.HeaderContentLength`. -/
def HeaderContentLength : GoString := "Content-Length".toList

/-- Tag `time_unix`. -/
def timeUnix : GoString := "time_unix".toList
/-- Tag `time_unix_nano`. -/
def timeUnixNano : GoString := "time_unix_nano".toList
/-- Tag `time_rfc3339`. -/
def timeRfc3339 : GoString := "time_rfc3339".toList
/-- Tag `time_rfc3339_nano`. -/
def timeRfc3339Nano : GoString := "time_rfc3339_nano".toList
/-- Tag `time_custom`. -/
def timeCustom : GoString := "time_custom".toList
/-- Tag `id`. -/
def id : GoString := "id".toList
/-- Tag `remote_ip`. -/
def remoteIP : GoString := "remote_ip".toList
/-- Tag `host`. -/
def host : GoString := "host".toList
/-- Tag `uri`. -/
def uri : GoString := "uri".toList
/-- Tag `method`. -/
def method : GoString := "method".toList
/-- Tag `path`. -/
def path : GoString := "path".toList
/-- Tag `protocol`. -/
def protocol : GoString := "protocol".toList
/-- Tag `referer`. -/
def referer : GoString := "referer".toList
/-- Tag `user_agent`. -/
def userAgent : GoString := "user_agent".toList
/-- Tag `status`. -/
def status : GoString := "status".toList
/-- Tag `error`. -/
def tagErr : GoString := "error".toList
/-- Tag `latency`. -/
def latency : GoString := "latency".toList
/-- Tag `latency_human`. -/
def latencyHuman : GoString := "latency_human".toList
/-- Tag `bytes_in`. -/
def bytesIn : GoString := "bytes_in".toList
/-- Tag `bytes_out`. -/
def bytesOut : GoString := "bytes_out".toList

/-- The twenty enumerated template tags. -/
def enumeratedTags : List GoString :=
  [timeUnix, timeUnixNano, timeRfc3339, timeRfc3339Nano, timeCustom, id, remoteIP, host, uri,
   method, path, protocol, referer, userAgent, status, tagErr, latency, latencyHuman,
   bytesIn, bytesOut]

/-- Status threshold 500. -/
def httpStatus500 : Int := 500
/-- Status threshold 400. -/
def httpStatus400 : Int := 400
/-- Status threshold 300. -/
def httpStatus300 : Int := 300

/-- `http.StatusOK`. -/
def StatusOK : Int := 200

/-- echo's `middleware.LoggerConfig`, as far as `NewLoggerConfig` and the renderer read
it. `OutputIsTerminal` tells whether `Output` is an `*os.File` attached to a terminal,
which is all `Color.SetOutput` looks at. -/
structure MiddlewareLoggerConfig where
  Format : GoString
  CustomTimeFormat : GoString
  OutputIsTerminal : Bool
  deriving DecidableEq

/-- `LoggerConfig`. The field `ctx` holds the bound `echo.Context` by identity (`none`
is the nil interface): the object itself lives in the `World`. -/
structure LoggerConfig where
  config : MiddlewareLoggerConfig
  ctx : Option Nat
  template : Template
  colorer : Color
  deriving DecidableEq

/-- `NewLoggerConfig`. `none` is the panic of `fasttemplate.New` on a malformed format. -/
def NewLoggerConfig (config : MiddlewareLoggerConfig) (stdoutIsTerminal : Bool) :
    Option LoggerConfig :=
  match New config.Format startTag endTag with
  | none => none
  | some t =>
    some { config := config, ctx := none, template := t,
           colorer := Color.SetOutput (colorNew stdoutIsTerminal) config.OutputIsTerminal }

/-- `LoggerConfig.isContextValid`. -/
def LoggerConfig.isContextValid (lc : LoggerConfig) : Bool := lc.ctx.isSome

/-- What a render mutates while the template is executed: the `bytes.Buffer`, the variable
`err` captured by the closure of `templateTagSwitcher`, and the number of clock readings
taken so far. -/
structure RenderState where
  buf : GoString
  err : Option GoError
  clock : Nat
  deriving DecidableEq

/-- A `fasttemplate.TagFunc` acting on the render state; it returns Go's `(int, error)`. -/
abbrev TagFunc := GoString → RenderState → (Nat × Option GoError) × RenderState

/-- `bytes.Buffer.Write` / `WriteString`: append, return the byte count and a nil error. -/
def bufWrite (st : RenderState) (p : GoString) : (Nat × Option GoError) × RenderState :=
  ((len p, none), { st with buf := st.buf ++ p })

/-- One reading of `time.Now()` during a render. -/
def renderNow (env : Env) (st : RenderState) : Time × RenderState :=
  (env.now st.clock, { st with clock := st.clock + 1 })

/-- The arms of the `switch` in the closure of `templateTagSwitcher`: one per enumerated
tag, the four dynamic families of the `default` arm with the text after the family name,
and the case in which no arm applies. -/
inductive SwitchCase where
  | timeUnix | timeUnixNano | timeRfc3339 | timeRfc3339Nano | timeCustom
  | id | remoteIP | host | uri | method | path | protocol | referer | userAgent
  | status | tagErr | latency | latencyHuman | bytesIn | bytesOut
  | header (key : GoString) | query (key : GoString) | form (key : GoString)
  | cookie (key : GoString)
  | unknown
  deriving DecidableEq

/-- Which arm of the `switch` a tag selects: the cases are tried in source order, then
the `strings.HasPrefix` tests of the `default` arm, with `tag[7:]`, `tag[6:]`, `tag[5:]`
and `tag[7:]` as the key. -/
def switchCase (tag : GoString) : SwitchCase :=
  if tag = timeUnix then SwitchCase.timeUnix
  else if tag = timeUnixNano then SwitchCase.timeUnixNano
  else if tag = timeRfc3339 then SwitchCase.timeRfc3339
  else if tag = timeRfc3339Nano then SwitchCase.timeRfc3339Nano
  else if tag = timeCustom then SwitchCase.timeCustom
  else if tag = id then SwitchCase.id
  else if tag = remoteIP then SwitchCase.remoteIP
  else if tag = host then SwitchCase.host
  else if tag = uri then SwitchCase.uri
  else if tag = method then SwitchCase.method
  else if tag = path then SwitchCase.path
  else if tag = protocol then SwitchCase.protocol
  else if tag = referer then SwitchCase.referer
  else if tag = userAgent then SwitchCase.userAgent
  else if tag = status then SwitchCase.status
  else if tag = tagErr then SwitchCase.tagErr
  else if tag = latency then SwitchCase.latency
  else if tag = latencyHuman then SwitchCase.latencyHuman
  else if tag = bytesIn then SwitchCase.bytesIn
  else if tag = bytesOut then SwitchCase.bytesOut
  else if HasPrefix tag "header:".toList then SwitchCase.header (tag.drop 7)
  else if HasPrefix tag "query:".toList then SwitchCase.query (tag.drop 6)
  else if HasPrefix tag "form:".toList then SwitchCase.form (tag.drop 5)
  else if HasPrefix tag "cookie:".toList then SwitchCase.cookie (tag.drop 7)
  else SwitchCase.unknown

/-- The closure returned by `templateTagSwitcher` when a context is bound: the body of
each arm of the `switch`, with `req`, `res` and `stop` as captured when the closure was
built. An arm that does not return falls through to the final `return 0, nil`. -/
def tagSwitch (env : Env) (lc : LoggerConfig) (ctx : Context) (req : Request) (res : Response)
    (startTime stop : Time) : TagFunc := fun tag st =>
  match switchCase tag with
  | SwitchCase.timeUnix =>
    let t := renderNow env st
    bufWrite t.2 (FormatInt (Time.Unix t.1))
  | SwitchCase.timeUnixNano =>
    let t := renderNow env st
    bufWrite t.2 (FormatInt (Time.UnixNano t.1))
  | SwitchCase.timeRfc3339 =>
    let t := renderNow env st
    bufWrite t.2 (env.format t.1 RFC3339)
  | SwitchCase.timeRfc3339Nano =>
    let t := renderNow env st
    bufWrite t.2 (env.format t.1 RFC3339Nano)
  | SwitchCase.timeCustom =>
    let t := renderNow env st
    bufWrite t.2 (env.format t.1 lc.config.CustomTimeFormat)
  | SwitchCase.id =>
    let requestID := Header.Get req.Header HeaderXRequestID
    let requestID := if requestID = [] then Header.Get res.header HeaderXRequestID else requestID
    bufWrite st requestID
  | SwitchCase.remoteIP => bufWrite st ctx.RealIP
  | SwitchCase.host => bufWrite st req.Host
  | SwitchCase.uri => bufWrite st req.RequestURI
  | SwitchCase.method => bufWrite st req.Method
  | SwitchCase.path =>
    let p := req.URL.Path
    let p := if p = [] then "/".toList else p
    bufWrite st p
  | SwitchCase.protocol => bufWrite st req.Proto
  | SwitchCase.referer => bufWrite st req.Referer
  | SwitchCase.userAgent => bufWrite st req.UserAgent
  | SwitchCase.status =>
    let n := res.Status
    let s := lc.colorer.Green n
    let s :=
      if n ≥ httpStatus500 then lc.colorer.Red n
      else if n ≥ httpStatus400 then lc.colorer.Yellow n
      else if n ≥ httpStatus300 then lc.colorer.Cyan n
      else s
    bufWrite st s
  | SwitchCase.tagErr =>
    match st.err with
    | some e =>
      let b := jsonMarshalString e
      let b := slice b 1 (b.length - 1)
      bufWrite st b
    | none => ((0, none), st)
  | SwitchCase.latency =>
    let l := Time.Sub stop startTime
    bufWrite st (FormatInt l)
  | SwitchCase.latencyHuman => bufWrite st (env.durationString (Time.Sub stop startTime))
  | SwitchCase.bytesIn =>
    let cl := Header.Get req.Header HeaderContentLength
    let cl := if cl = [] then "0".toList else cl
    bufWrite st cl
  | SwitchCase.bytesOut => bufWrite st (FormatInt res.Size)
  | SwitchCase.header key => bufWrite st (Header.Get req.Header key)
  | SwitchCase.query key => bufWrite st (ctx.QueryParam key)
  | SwitchCase.form key => bufWrite st (ctx.FormValue key)
  | SwitchCase.cookie key =>
    match ctx.Cookie key with
    | Except.ok cookie => bufWrite { st with err := none } cookie.Value
    | Except.error e => ((0, none), { st with err := some e })
  | SwitchCase.unknown => ((0, none), st)

/-- `LoggerConfig.templateTagSwitcher`: with no context bound, the closure that writes
nothing; otherwise `stop` is read from the clock and the tag switch is returned. `ctxs`
resolves the bound context. The second component is the clock count afterwards. -/
def LoggerConfig.templateTagSwitcher (env : Env) (lc : LoggerConfig) (ctxs : Nat → Context)
    (startTime : Time) (clock : Nat) : TagFunc × Nat :=
  if !lc.isContextValid then (fun _ st => ((0, none), st), clock)
  else
    match lc.ctx with
    | none => (fun _ st => ((0, none), st), clock)
    | some p =>
      let ctx := ctxs p
      let req := ctx.request
      let res := ctx.response
      let stop := env.now clock
      (tagSwitch env lc ctx req res startTime stop, clock + 1)

/-- The loop of `Template.ExecuteFunc` from index `i` on, given `texts[i:]` and `tags[i:]`:
write a literal, call the tag function, and after the last tag write the last literal.
`nn` is the running byte count. `none` is an index-out-of-range panic. -/
def executeLoop (f : TagFunc) : List GoString → List GoString → Nat → RenderState →
    Option ((Nat × Option GoError) × RenderState)
  | [], _, _, _ => none
  | [last], _, nn, st =>
    let r := bufWrite st last
    some ((nn + r.1.1, r.1.2), r.2)
  | t :: t2 :: ts, tags, nn, st =>
    let r := bufWrite st t
    let nn := nn + r.1.1
    match r.1.2 with
    | some e => some ((nn, some e), r.2)
    | none =>
      match tags with
      | [] => none
      | g :: gs =>
        let r := f g r.2
        let nn := nn + r.1.1
        match r.1.2 with
        | some e => some ((nn, some e), r.2)
        | none => executeLoop f (t2 :: ts) gs nn r.2

/-- `Template.ExecuteFunc` writing into the render buffer: a template without texts is
written whole, otherwise the loop runs. -/
def Template.ExecuteFunc (t : Template) (f : TagFunc) (st : RenderState) :
    Option ((Nat × Option GoError) × RenderState) :=
  if t.texts = [] then some (bufWrite st t.template)
  else executeLoop f t.texts t.tags 0 st

/-! ## the running program -/

/-- The state the middleware and the renderer share: the one `*LoggerConfig`, the
`echo.Context` objects by identity, the number of clock readings taken, the payloads
written to `c.Logger().Output()` and the errors handed to `c.Error`, both in order. -/
structure World where
  conf : LoggerConfig
  ctxs : Nat → Context
  clock : Nat
  output : List GoString
  errors : List (Nat × GoError)

/-- `LoggerConfig.DefaultLogger` on the configuration of the world: a fresh buffer, the
template executed with the tag switcher, and `(nil, err)` or `(buf.Bytes(), nil)`
returned (a nil slice is the empty list). The deferred `buf.Reset()` runs after the
result is taken and only truncates the buffer, so the bytes returned are the bytes
written. Only the clock count of the world changes. `none` is a panic. -/
def DefaultLogger (env : Env) (w : World) (startTime : Time) :
    Option ((GoString × Option GoError) × World) :=
  let sw := w.conf.templateTagSwitcher env w.ctxs startTime w.clock
  match w.conf.template.ExecuteFunc sw.1 { buf := [], err := none, clock := sw.2 } with
  | none => none
  | some r =>
    match r.1.2 with
    | some e => some (([], some e), { w with clock := r.2.clock })
    | none => some ((r.2.buf, none), { w with clock := r.2.clock })

/-- `LoggerConfig.SetContext`: overwrite the bound context. -/
def LoggerConfig.SetContext (lc : LoggerConfig) (c : Nat) : LoggerConfig :=
  { lc with ctx := some c }

/-- `conf.SetContext(n)` on the shared configuration. -/
def SetContext (w : World) (c : Nat) : World :=
  { w with conf := w.conf.SetContext c }

/-- The function `BaseLogger` registers with `Response.After`: when the status of its own
context `c` is not 200 or the host of `c` contains `localhost`, render with the shared
configuration and write the bytes to the log output. -/
def afterHook (env : Env) (h : HookClosure) (w : World) : Option World :=
  let c := w.ctxs h.c
  if c.response.Status ≠ StatusOK || Contains c.request.Host "localhost".toList then
    match DefaultLogger env w h.startTime with
    | none => none
    | some r => some { r.2 with output := r.2.output ++ [r.1.1] }
  else some w

/-- `Response.After`: append a function to the response's after-functions. -/
def After (w : World) (c : Nat) (h : HookClosure) : World :=
  let ctx := w.ctxs c
  let res := ctx.response
  let res := { res with afterFuncs := res.afterFuncs ++ [h] }
  { w with ctxs := Function.update w.ctxs c { ctx with response := res } }

/-- Run the after-functions `hs` in order, as `Response.Write` does once the body is
written. -/
def runAfterFuncs (env : Env) : List HookClosure → World → Option World
  | [], w => some w
  | h :: hs, w =>
    match afterHook env h w with
    | none => none
    | some w => runAfterFuncs env hs w

/-- `Response.WriteHeader` of echo: on a response already committed nothing happens
(a warning is logged); otherwise the status is stored and the response is committed. No
before-function is registered by this program. -/
def responseWriteHeader (w : World) (c : Nat) (code : Int) : World :=
  let ctx := w.ctxs c
  let res := ctx.response
  if res.Committed then w
  else
    let res := { res with Status := code, Committed := true }
    { w with ctxs := Function.update w.ctxs c { ctx with response := res } }

/-- `Response.Write` of echo: a response not yet committed gets its header written, with
status 200 when none was set; the bytes written are added to `Size`; then the
after-functions run in order. -/
def responseWrite (env : Env) (w : World) (c : Nat) (b : GoString) : Option World :=
  let w :=
    if (w.ctxs c).response.Committed then w
    else
      let status := if (w.ctxs c).response.Status = 0 then StatusOK
        else (w.ctxs c).response.Status
      responseWriteHeader w c status
  let ctx := w.ctxs c
  let res := ctx.response
  let res := { res with Size := wrapInt64 (res.Size + (len b : Int)) }
  let w := { w with ctxs := Function.update w.ctxs c { ctx with response := res } }
  runAfterFuncs env (w.ctxs c).response.afterFuncs w

/-- An `echo.HandlerFunc`: given a context it acts on the world and returns an error or
nil; `none` is a panic. -/
abbrev HandlerFunc := Nat → World → Option (Option GoError × World)

/-- `Context.JSON(code, i)` of echo, with `body` the serialised value: the status is
stored in the response, then the body is written with `Response.Write`. -/
def cJSON (env : Env) (code : Int) (body : GoString) : HandlerFunc := fun c w =>
  let ctx := w.ctxs c
  let res := ctx.response
  let res := { res with Status := code }
  let w := { w with ctxs := Function.update w.ctxs c { ctx with response := res } }
  match responseWrite env w c body with
  | none => none
  | some w => some (none, w)

/-- The `HTTPErrorHandler` of an `echo.Echo`: what `Context.Error` calls with the error
and the context; `none` is a panic. -/
abbrev HTTPErrorHandler := GoError → Nat → World → Option World

/-- `Echo.DefaultHTTPErrorHandler`: nothing on a committed response; otherwise the error
response is sent, for a `HEAD` request with `NoContent`, which writes the header only,
and else with `JSON`. `codeOf` gives the status of an error (the code of an
`*echo.HTTPError`, 500 for any other error) and `bodyOf` the serialised message. -/
def DefaultHTTPErrorHandler (env : Env) (codeOf : GoError → Int) (bodyOf : GoError → GoString) :
    HTTPErrorHandler := fun err c w =>
  if (w.ctxs c).response.Committed then some w
  else if (w.ctxs c).request.Method = "HEAD".toList then
    some (responseWriteHeader w c (codeOf err))
  else
    match cJSON env (codeOf err) (bodyOf err) c w with
    | none => none
    | some r => some r.2

/-- `Context.Error`: `c.echo.HTTPErrorHandler(err, c)`. The call is recorded in `errors`
before the handler `eh` of the host runs. -/
def cError (eh : HTTPErrorHandler) (w : World) (c : Nat) (err : GoError) : Option World :=
  eh err c { w with errors := w.errors ++ [(c, err)] }

/-- The handler `BaseLogger(conf)(next)`. `middlewareFunc` is echo's `middleware.Logger()`
and `eh` the error handler of the host, which `c.Error` calls. The context `n` handed on
is `ModifiedContext{c}`: it wraps the same request and response as `c` and overrides only
`Path()`, which the logger never calls, so it is the same object for everything the
logger reads. -/
def BaseLogger (env : Env) (eh : HTTPErrorHandler) (middlewareFunc : HandlerFunc → HandlerFunc)
    (next : HandlerFunc) : HandlerFunc := fun c w =>
  let startTime := env.now w.clock
  let w := { w with clock := w.clock + 1 }
  let h := middlewareFunc next
  let n := c
  let w := SetContext w n
  let w := After w c { c := c, startTime := startTime }
  match h n w with
  | none => none
  | some r =>
    match r.1 with
    | some err =>
      match cError eh r.2 c err with
      | none => none
      | some w => some (none, w)
    | none => some (none, r.2)

/-! ## fixtures: the values the repository's tests use -/

/-- The format string set by `_init` in the tests, with `APP_ENV` empty. -/
def testFormat : GoString :=
  "\x7b\"time\":\"$\x7btime_rfc3339_nano\x7d\",\"id\":\"$\x7bid\x7d\",\"remote_ip\":\"$\x7bremote_ip\x7d\",\"host\":\"$\x7bhost\x7d\",\"method\":\"$\x7bmethod\x7d\",\"uri\":\"$\x7buri\x7d\",\"user_agent\":\"$\x7buser_agent\x7d\",\"status\":$\x7bstatus\x7d,\"error\":\"$\x7berror\x7d\",\"latency\":$\x7blatency\x7d,\"latency_human\":\"$\x7blatency_human\x7d\",\"environment\":\"\",\"bytes_in\":$\x7bbytes_in\x7d,\"bytes_out\":$\x7bbytes_out\x7d\x7d\n".toList

/-- The content `TestShouldReturnNonReplacedLogContentIfContextNotSet_DefaultLogger`
expects. -/
def testUnboundContent : GoString :=
  "\x7b\"time\":\"\",\"id\":\"\",\"remote_ip\":\"\",\"host\":\"\",\"method\":\"\",\"uri\":\"\",\"user_agent\":\"\",\"status\":,\"error\":\"\",\"latency\":,\"latency_human\":\"\",\"environment\":\"\",\"bytes_in\":,\"bytes_out\":\x7d".toList

/-- `middleware.DefaultLoggerConfig` after `_init`: the test format, echo's default custom
time layout, and no `Output` set. -/
def testLoggerConfig : MiddlewareLoggerConfig :=
  { Format := testFormat, CustomTimeFormat := "2006-01-02 15:04:05.00000".toList,
    OutputIsTerminal := false }

/-- A clock that advances one millisecond per reading, with placeholder formatting
routines. -/
def testEnv : Env :=
  { now := fun k => 1000000 * (k : Int),
    format := fun t layout => layout ++ FormatInt t,
    durationString := fun d => FormatInt d ++ "ns".toList }

/-- A header map without entries. -/
def emptyHeader : Header := fun _ => none

/-- `httptest.NewRequest(echo.GET, target, nil)`: method GET, host `example.com`. -/
def testRequest (target : GoString) : Request :=
  { Method := "GET".toList, Proto := "HTTP/1.1".toList, Host := "example.com".toList,
    RequestURI := target, URL := { Path := target }, Header := emptyHeader }

/-- The context `e.NewContext(req, res)` of the tests, with the response at `status`:
no query parameters, no form values, no cookies. -/
def testContext (target : GoString) (status : Int) : Context :=
  { request := testRequest target,
    response := { Status := status, Size := 0, header := emptyHeader, afterFuncs := [], Committed := false },
    RealIP := "192.0.2.1".toList,
    QueryParam := fun _ => [],
    FormValue := fun _ => [],
    Cookie := fun _ => Except.error "http: named cookie not present".toList }

/-- A world around the configuration `lc` in which every context object is `ctx`. -/
def worldOf (lc : LoggerConfig) (ctx : Context) : World :=
  { conf := lc, ctxs := fun _ => ctx, clock := 0, output := [], errors := [] }

/-- The template `New` builds from `fmt`; for a malformed format, on which `New`
panics, the template without texts. -/
def templateOf (fmt : GoString) : Template :=
  match New fmt startTag endTag with
  | some t => t
  | none => { template := fmt, startTag := startTag, endTag := endTag, texts := [], tags := [] }

/-- The configuration `NewLoggerConfig` returns in the tests: the test format parsed,
no context bound, colouring disabled because `Output` is not a terminal. -/
def testConf : LoggerConfig :=
  { config := testLoggerConfig, ctx := none, template := templateOf testFormat,
    colorer := { disabled := true } }

/-- The example format of the specification: a JSON object with the `status` tag. -/
def statusFormat : GoString := "\x7b\"status\":$\x7bstatus\x7d\x7d".toList

/-- A configuration around the format `fmt` with the context object `ctx` bound (or
none) and colouring switched as given. -/
def confOf (fmt : GoString) (ctx : Option Nat) (disabled : Bool) : LoggerConfig :=
  { config := { Format := fmt, CustomTimeFormat := [], OutputIsTerminal := !disabled },
    ctx := ctx, template := templateOf fmt, colorer := { disabled := disabled } }

/-- A format with the three request tags of `TestLoggerConfig_DefaultLogger` and the
status. -/
def hostFormat : GoString :=
  "\"host\":\"$\x7bhost\x7d\",\"method\":\"$\x7bmethod\x7d\",\"uri\":\"$\x7buri\x7d\",\"status\":$\x7bstatus\x7d".toList

/-- Request A of the two-request scenario: `GET /a` on `a.example`, response not yet
written. -/
def contextA : Context :=
  { request := { Method := "GET".toList, Proto := "HTTP/1.1".toList, Host := "a.example".toList,
                 RequestURI := "/a".toList, URL := { Path := "/a".toList },
                 Header := emptyHeader },
    response := { Status := 0, Size := 0, header := emptyHeader, afterFuncs := [], Committed := false },
    RealIP := "192.0.2.1".toList,
    QueryParam := fun _ => [],
    FormValue := fun _ => [],
    Cookie := fun _ => Except.error "http: named cookie not present".toList }

/-- Request B of the two-request scenario: `POST /b` on `b.example`, answered with 500. -/
def contextB : Context :=
  { request := { Method := "POST".toList, Proto := "HTTP/1.1".toList,
                 Host := "b.example".toList, RequestURI := "/b".toList,
                 URL := { Path := "/b".toList }, Header := emptyHeader },
    response := { Status := 500, Size := 0, header := emptyHeader, afterFuncs := [], Committed := false },
    RealIP := "192.0.2.2".toList,
    QueryParam := fun _ => [],
    FormValue := fun _ => [],
    Cookie := fun _ => Except.error "http: named cookie not present".toList }

/-- A world with request A as context object 0 and request B as every other one,
sharing one configuration built around `hostFormat`. -/
def twoRequests : World :=
  { conf := confOf hostFormat none true,
    ctxs := fun i => if i = 0 then contextA else contextB,
    clock := 0, output := [], errors := [] }

/-- A handler that answers with status `code`, as `baseLoggerStatusOK` and
`baseLoggerStatusNotFound` of the tests do with `c.JSON(code, nil)`: the body is `null`
and a newline. -/
def writeResponse (env : Env) (code : Int) : HandlerFunc :=
  cJSON env code "null\n".toList

/-- The error handler of an echo host as it comes: `DefaultHTTPErrorHandler`, for errors
that are no `*echo.HTTPError`, with status 500 and the standard message. -/
def testErrorHandler (env : Env) : HTTPErrorHandler :=
  DefaultHTTPErrorHandler env (fun _ => 500)
    (fun _ => "\x7b\"message\":\"Internal Server Error\"\x7d\n".toList)

/-- The handler of request A when request B enters the middleware meanwhile: B's
`BaseLogger` binds B's context (object 1) on the shared configuration, then A answers
with status `code`. -/
def writeResponseAfterOtherBind (env : Env) (code : Int) : HandlerFunc := fun c w =>
  writeResponse env code c (SetContext w 1)

/-- A clock frozen at the instant `t`, with placeholder formatting routines. -/
def frozenEnv (t : Time) : Env :=
  { now := fun _ => t,
    format := fun u layout => layout ++ FormatInt u,
    durationString := fun d => FormatInt d ++ "ns".toList }

/-- The zero `time.Time`, January 1 of year 1, in nanoseconds since the Unix epoch. -/
def zeroTime : Time := -62135596800000000000

/-- Midnight UTC of 2026-11-04, in nanoseconds since the Unix epoch. -/
def someDay2026 : Time := 1793750400000000000

/-- The test context with a `Content-Length` header of value `42`. -/
def contextWithLength : Context :=
  { testContext "/upload".toList 201 with
    request := { testRequest "/upload".toList with
      Header := fun k => if k = "Content-Length".toList then some ["42".toList] else none } }

/-- The test context on the host `localhost:8080`, answered with `status`. -/
def localContext (status : Int) : Context :=
  { testContext "/".toList status with
    request := { testRequest "/".toList with Host := "localhost:8080".toList } }

/-- A header map with the single entry `key: value`. -/
def singleHeader (key value : GoString) : Header :=
  fun k => if k = key then some [value] else none

/-- The `http.ErrNoCookie` message. -/
def errNoCookie : GoError := "http: named cookie not present".toList

/-- A request that carries a request id, a query parameter `q`, a form value `name` and
a cookie `sid`; its response carries another request id. -/
def richContext : Context :=
  { request := { Method := "POST".toList, Proto := "HTTP/1.1".toList,
                 Host := "example.com".toList, RequestURI := "/search?q=lean".toList,
                 URL := { Path := "/search".toList },
                 Header := singleHeader "X-Request-Id".toList "req-1".toList },
    response := { Status := 200, Size := 0,
                  header := singleHeader "X-Request-Id".toList "res-7".toList,
                  afterFuncs := [], Committed := false },
    RealIP := "192.0.2.1".toList,
    QueryParam := fun k => if k = "q".toList then "lean".toList else [],
    FormValue := fun k => if k = "name".toList then "ada".toList else [],
    Cookie := fun k =>
      if k = "sid".toList then Except.ok { Name := "sid".toList, Value := "abc".toList }
      else Except.error errNoCookie }

/-- The test context with a request id on the response only. -/
def responseIdContext : Context :=
  { testContext "/".toList 200 with
    response := { Status := 200, Size := 0,
                  header := singleHeader "X-Request-Id".toList "res-7".toList,
                  afterFuncs := [], Committed := false } }

/-- A handler that returns the error `boom` without writing a response. -/
def failingHandler : HandlerFunc := fun _ w => some (some "boom".toList, w)

/-- A format with the `error` tag alone, between quotes. -/
def errorFormat : GoString := "e=\"$\x7berror\x7d\"".toList

/-- A format with a cookie tag before the `error` tag. -/
def cookieErrorFormat : GoString :=
  "c=$\x7bcookie:sid\x7d;e=\"$\x7berror\x7d\"".toList

/-- A format with a cookie tag and the `error` tag next to each other. -/
def adjacentFormat : GoString := "$\x7bcookie:sid\x7d$\x7berror\x7d".toList

/-! ## specification-side definitions -/

/-- The format string with every placeholder taken out, following the words of the
specification: scanning left to right, a placeholder opens at `$` followed by an opening
brace and closes at the next closing brace; literal characters are kept in order. The
flag tells whether the scan is inside a placeholder. -/
def stripPlaceholders : Bool → GoString → GoString
  | _, [] => []
  | true, c :: r => if c = '\x7d' then stripPlaceholders false r else stripPlaceholders true r
  | false, [c] => [c]
  | false, c :: d :: r =>
    if c = '$' ∧ d = '\x7b' then stripPlaceholders true r
    else c :: stripPlaceholders false (d :: r)

/-- A format string is well formed when every placeholder that opens is closed: the
scan ends outside a placeholder. -/
def wellFormed : Bool → GoString → Bool
  | inTag, [] => !inTag
  | true, c :: r => if c = '\x7d' then wellFormed false r else wellFormed true r
  | false, [_] => true
  | false, c :: d :: r =>
    if c = '$' ∧ d = '\x7b' then wellFormed true r else wellFormed false (d :: r)

/-- The world `w` with the response of `c` committed at `status` and `n` more bytes
counted as written. -/
def committedAt (w : World) (c : Nat) (status : Int) (n : Nat) : World :=
  let ctx := w.ctxs c
  let res := ctx.response
  let res := { res with Status := status, Committed := true,
                        Size := wrapInt64 (res.Size + (n : Int)) }
  { w with ctxs := Function.update w.ctxs c { ctx with response := res } }

/-! ## lemmas: strings -/

theorem HasPrefix_iff (s pre : GoString) : HasPrefix s pre = true ↔ pre <+: s := by
  unfold HasPrefix
  rw [Bool.and_eq_true, decide_eq_true_iff, decide_eq_true_iff]
  constructor
  · rintro ⟨_, h⟩
    exact List.prefix_iff_eq_take.mpr h.symm
  · intro h
    exact ⟨h.length_le, (List.prefix_iff_eq_take.mp h).symm⟩

theorem Index_some_spec : ∀ (s sep : GoString) (n : Nat), Index s sep = some n →
    s = s.take n ++ sep ++ s.drop (n + sep.length)
  | [], sep, n, h => by
    unfold Index at h
    split at h
    · rename_i hp
      have := (HasPrefix_iff _ _).mp hp
      have hs : sep = [] := List.eq_nil_of_prefix_nil this
      simp [hs]
    · simp at h
  | c :: r, sep, n, h => by
    unfold Index at h
    split at h
    · rename_i hp
      obtain ⟨t, ht⟩ := (HasPrefix_iff _ _).mp hp
      simp only [Option.some.injEq] at h
      subst h
      rw [← ht]
      simp
    · cases hr : Index r sep with
      | none => simp [hr] at h
      | some i =>
        simp only [hr, Option.some.injEq] at h
        subst h
        have ih := Index_some_spec r sep i hr
        simp only [List.take_succ_cons, List.cons_append, List.cons.injEq, true_and]
        rw [show i + 1 + sep.length = (i + sep.length) + 1 by omega, List.drop_succ_cons]
        simpa using ih

theorem Index_isSome_of_infix : ∀ (s sep : GoString), sep <:+: s → (Index s sep).isSome = true
  | [], sep, h => by
    have hs : sep = [] := List.eq_nil_of_infix_nil h
    subst hs
    simp [Index, HasPrefix]
  | c :: r, sep, h => by
    unfold Index
    split
    · rfl
    · rename_i hp
      rcases List.infix_cons_iff.mp h with h1 | h1
      · exact absurd ((HasPrefix_iff _ _).mpr h1) hp
      · have ih := Index_isSome_of_infix r sep h1
        cases hr : Index r sep with
        | none => simp [hr] at ih
        | some i => simp

theorem Contains_iff (s substr : GoString) : Contains s substr = true ↔ substr <:+: s := by
  unfold Contains
  constructor
  · intro h
    cases hi : Index s substr with
    | none => simp [hi] at h
    | some n =>
      have := Index_some_spec s substr n hi
      exact ⟨s.take n, s.drop (n + substr.length), this.symm⟩
  · exact Index_isSome_of_infix s substr

/-! ## lemmas: the scanner of the specification against `Index` -/

theorem HasPrefix_startTag_nil : HasPrefix [] startTag = false := by decide

theorem HasPrefix_startTag_single (c : Char) : HasPrefix [c] startTag = false := by
  simp [HasPrefix, startTag]

theorem HasPrefix_startTag_cons (c d : Char) (r : GoString) :
    HasPrefix (c :: d :: r) startTag = decide (c = '$' ∧ d = '\x7b') := by
  simp [HasPrefix, startTag]

theorem HasPrefix_endTag_nil : HasPrefix [] endTag = false := by decide

theorem HasPrefix_endTag_cons (c : Char) (r : GoString) :
    HasPrefix (c :: r) endTag = decide (c = '\x7d') := by
  simp [HasPrefix, endTag]

theorem strip_of_Index_start_none : ∀ (s : GoString), Index s startTag = none →
    stripPlaceholders false s = s ∧ wellFormed false s = true
  | [], _ => by simp [stripPlaceholders, wellFormed]
  | [c], _ => by simp [stripPlaceholders, wellFormed]
  | c :: d :: r, h => by
    unfold Index at h
    rw [HasPrefix_startTag_cons] at h
    split at h
    · simp at h
    · rename_i hp
      cases hr : Index (d :: r) startTag with
      | some i => simp [hr] at h
      | none =>
        have ih := strip_of_Index_start_none (d :: r) hr
        have hp1 : ¬ (c = '$' ∧ d = '\x7b') := by simpa using hp
        simp only [stripPlaceholders, wellFormed, if_neg hp1, ih.1, ih.2, and_self]

theorem strip_of_Index_start_some : ∀ (s : GoString) (n : Nat), Index s startTag = some n →
    stripPlaceholders false s = s.take n ++ stripPlaceholders true (s.drop (n + 2)) ∧
    wellFormed false s = wellFormed true (s.drop (n + 2))
  | [], n, h => by
    unfold Index at h
    simp [HasPrefix_startTag_nil] at h
  | [c], n, h => by
    unfold Index at h
    simp [HasPrefix_startTag_single, Index, HasPrefix_startTag_nil] at h
  | c :: d :: r, n, h => by
    unfold Index at h
    rw [HasPrefix_startTag_cons] at h
    split at h
    · rename_i hp
      have hp1 : c = '$' ∧ d = '\x7b' := by simpa using hp
      simp only [Option.some.injEq] at h
      subst h
      simp only [stripPlaceholders, wellFormed, if_pos hp1]
      simp
    · rename_i hp
      have hp1 : ¬ (c = '$' ∧ d = '\x7b') := by simpa using hp
      cases hr : Index (d :: r) startTag with
      | none => simp [hr] at h
      | some i =>
        simp only [hr, Option.some.injEq] at h
        subst h
        have ih := strip_of_Index_start_some (d :: r) i hr
        simp only [stripPlaceholders, wellFormed, if_neg hp1, ih.1, ih.2]
        simp

theorem strip_of_Index_end_none : ∀ (s : GoString), Index s endTag = none →
    wellFormed true s = false
  | [], _ => by simp [wellFormed]
  | c :: r, h => by
    unfold Index at h
    rw [HasPrefix_endTag_cons] at h
    split at h
    · simp at h
    · rename_i hp
      have hp1 : ¬ c = '\x7d' := by simpa using hp
      cases hr : Index r endTag with
      | some i => simp [hr] at h
      | none =>
        simp only [wellFormed, if_neg hp1]
        exact strip_of_Index_end_none r hr

theorem strip_of_Index_end_some : ∀ (s : GoString) (n : Nat), Index s endTag = some n →
    stripPlaceholders true s = stripPlaceholders false (s.drop (n + 1)) ∧
    wellFormed true s = wellFormed false (s.drop (n + 1))
  | [], n, h => by
    unfold Index at h
    simp [HasPrefix_endTag_nil] at h
  | c :: r, n, h => by
    unfold Index at h
    rw [HasPrefix_endTag_cons] at h
    split at h
    · rename_i hp
      have hp1 : c = '\x7d' := by simpa using hp
      simp only [Option.some.injEq] at h
      subst h
      simp only [stripPlaceholders, wellFormed, if_pos hp1]
      simp
    · rename_i hp
      have hp1 : ¬ c = '\x7d' := by simpa using hp
      cases hr : Index r endTag with
      | none => simp [hr] at h
      | some i =>
        simp only [hr, Option.some.injEq] at h
        subst h
        have ih := strip_of_Index_end_some r i hr
        simp only [stripPlaceholders, wellFormed, if_neg hp1, ih.1, ih.2]
        simp

theorem Index_some_bound (s sep : GoString) (n : Nat) (h : Index s sep = some n)
    (h0 : 0 < sep.length) : n + sep.length ≤ s.length := by
  have h1 := congrArg List.length (Index_some_spec s sep n h)
  simp only [List.length_append, List.length_take, List.length_drop] at h1
  omega

/-! ## lemmas: the template parser -/

theorem resetLoop_spec : ∀ (fuel : Nat) (s : GoString) (texts tags : List GoString),
    s.length < fuel →
    (wellFormed false s = true → ∃ T G : List GoString,
      resetLoop fuel s startTag endTag texts tags = ScanResult.ok (texts ++ T) (tags ++ G) ∧
      T.length = G.length + 1 ∧ T.flatten = stripPlaceholders false s) ∧
    (wellFormed false s = false →
      resetLoop fuel s startTag endTag texts tags = ScanResult.missingEnd)
  | 0, s, texts, tags, h => by omega
  | fuel + 1, s, texts, tags, h => by
    unfold resetLoop
    cases hi : Index s startTag with
    | none =>
      have h1 := strip_of_Index_start_none s hi
      refine ⟨fun _ => ⟨[s], [], ?_, ?_, ?_⟩, fun hw => ?_⟩
      · simp
      · simp
      · simp [h1.1]
      · rw [h1.2] at hw
        cases hw
    | some n =>
      have h1 := strip_of_Index_start_some s n hi
      have hb := Index_some_bound s startTag n hi (by decide)
      have hlen : startTag.length = 2 := rfl
      simp only [hlen]
      cases hj : Index (s.drop (n + 2)) endTag with
      | none =>
        have h2 := strip_of_Index_end_none _ hj
        refine ⟨fun hw => ?_, fun _ => rfl⟩
        rw [h1.2, h2] at hw
        cases hw
      | some m =>
        have h2 := strip_of_Index_end_some _ m hj
        have hlen2 : endTag.length = 1 := rfl
        simp only [hlen2]
        have hfuel : ((s.drop (n + 2)).drop (m + 1)).length < fuel := by
          simp only [List.length_drop]
          rw [hlen] at hb
          omega
        have ih := resetLoop_spec fuel ((s.drop (n + 2)).drop (m + 1))
          (texts ++ [s.take n]) (tags ++ [(s.drop (n + 2)).take m]) hfuel
        refine ⟨fun hw => ?_, fun hw => ?_⟩
        · rw [h1.2, h2.2] at hw
          obtain ⟨T, G, hr, hl, hjn⟩ := ih.1 hw
          refine ⟨s.take n :: T, (s.drop (n + 2)).take m :: G, ?_, ?_, ?_⟩
          · rw [hr]
            simp
          · simp [hl]
          · rw [List.flatten_cons, hjn, h1.1, h2.1]
        · rw [h1.2, h2.2] at hw
          exact ih.2 hw

theorem Count_eq_zero_iff (s sep : GoString) (h : sep ≠ []) :
    Count s sep = 0 ↔ Index s sep = none := by
  unfold Count
  rw [if_neg h]
  unfold countLoop
  cases Index s sep <;> simp

/-- A well-formed format string is parsed into a template that either has no texts (it
holds no placeholder and is written whole) or has one more text than tags; in both cases
the literal parts joined are the format string without its placeholders. -/
theorem New_of_wellFormed (fmt : GoString) (h : wellFormed false fmt = true) :
    ∃ t : Template, New fmt startTag endTag = some t ∧ t.template = fmt ∧
      ((t.texts = [] ∧ stripPlaceholders false fmt = fmt) ∨
       (t.texts.length = t.tags.length + 1 ∧ t.texts.flatten = stripPlaceholders false fmt)) := by
  unfold New NewTemplate
  rw [if_neg (by decide), if_neg (by decide)]
  by_cases hc : Count fmt startTag = 0
  · rw [if_pos hc]
    have hi := (Count_eq_zero_iff fmt startTag (by decide)).mp hc
    exact ⟨_, rfl, rfl, Or.inl ⟨rfl, (strip_of_Index_start_none fmt hi).1⟩⟩
  · rw [if_neg hc]
    obtain ⟨T, G, hr, hl, hj⟩ := (resetLoop_spec (fmt.length + 1) fmt [] [] (by omega)).1 h
    rw [hr]
    exact ⟨_, rfl, rfl, Or.inr ⟨by simpa using hl, by simpa using hj⟩⟩

/-- A format string that is not well formed is rejected. -/
theorem New_of_not_wellFormed (fmt : GoString) (h : wellFormed false fmt = false) :
    New fmt startTag endTag = none := by
  unfold New NewTemplate
  rw [if_neg (by decide), if_neg (by decide)]
  by_cases hc : Count fmt startTag = 0
  · have hi := (Count_eq_zero_iff fmt startTag (by decide)).mp hc
    rw [(strip_of_Index_start_none fmt hi).2] at h
    cases h
  · rw [if_neg hc, (resetLoop_spec (fmt.length + 1) fmt [] [] (by omega)).2 h]

/-- Every template `New` returns has no texts or one more text than tags. -/
theorem New_shape (fmt : GoString) (t : Template) (h : New fmt startTag endTag = some t) :
    t.template = fmt ∧
    ((t.texts = [] ∧ stripPlaceholders false fmt = fmt) ∨
     (t.texts.length = t.tags.length + 1 ∧ t.texts.flatten = stripPlaceholders false fmt)) := by
  cases hw : wellFormed false fmt with
  | false => rw [New_of_not_wellFormed fmt hw] at h; cases h
  | true =>
    obtain ⟨t1, h1, h2⟩ := New_of_wellFormed fmt hw
    rw [h1] at h
    cases h
    exact h2

/-! ## lemmas: executing a template -/

theorem executeLoop_total (f : TagFunc) (hf : ∀ g st, (f g st).1.2 = none) :
    ∀ (texts tags : List GoString) (nn : Nat) (st : RenderState),
      texts.length = tags.length + 1 →
      ∃ n st1, executeLoop f texts tags nn st = some ((n, none), st1)
  | [], tags, nn, st, h => by simp at h
  | [last], tags, nn, st, _ => ⟨nn + len last, { st with buf := st.buf ++ last }, by
    simp [executeLoop, bufWrite]⟩
  | t :: t2 :: ts, [], nn, st, h => by simp at h
  | t :: t2 :: ts, g :: gs, nn, st, h => by
    have ih := executeLoop_total f hf (t2 :: ts) gs (nn + len t + (f g (bufWrite st t).2).1.1)
      (f g (bufWrite st t).2).2 (by simpa using h)
    simpa [executeLoop, bufWrite, hf] using ih

/-- Texts are written in order and the buffer only grows: what a run leaves in the
buffer starts with the buffer before, followed by the first text. -/
theorem executeLoop_grows (f : TagFunc) (hg : ∀ g st, ∃ d, (f g st).2.buf = st.buf ++ d) :
    ∀ (texts tags : List GoString) (nn : Nat) (st : RenderState)
      (r : Nat × Option GoError) (st1 : RenderState),
      executeLoop f texts tags nn st = some (r, st1) →
      ∃ d, st1.buf = st.buf ++ texts.headD [] ++ d
  | [], tags, nn, st, r, st1, h => by simp [executeLoop] at h
  | [last], tags, nn, st, r, st1, h => by
    simp only [executeLoop, bufWrite, Option.some.injEq, Prod.mk.injEq] at h
    exact ⟨[], by simp [← h.2]⟩
  | t :: t2 :: ts, [], nn, st, r, st1, h => by simp [executeLoop, bufWrite] at h
  | t :: t2 :: ts, g :: gs, nn, st, r, st1, h => by
    simp only [executeLoop, bufWrite] at h
    obtain ⟨d, hd⟩ := hg g { st with buf := st.buf ++ t }
    split at h
    · simp only [Option.some.injEq, Prod.mk.injEq] at h
      exact ⟨d, by rw [← h.2, hd]; simp⟩
    · obtain ⟨d2, hd2⟩ := executeLoop_grows f hg (t2 :: ts) gs _ _ r st1 h
      exact ⟨d ++ t2 ++ d2, by rw [hd2, hd]; simp⟩

/-- A run over `tx ++ rest` and `tg ++ restg`, with as many texts as tags in front and a
tag function that never fails, is a run over `rest` and `restg` from a later state whose
buffer extends the first one. -/
theorem executeLoop_append (f : TagFunc) (hf : ∀ g st, (f g st).1.2 = none)
    (hg : ∀ g st, ∃ d, (f g st).2.buf = st.buf ++ d) (rest restg : List GoString)
    (hrest : rest ≠ []) :
    ∀ (tx tg : List GoString) (nn : Nat) (st : RenderState), tx.length = tg.length →
      ∃ n2 st2 d, st2.buf = st.buf ++ d ∧
        executeLoop f (tx ++ rest) (tg ++ restg) nn st = executeLoop f rest restg n2 st2
  | [], [], nn, st, _ => ⟨nn, st, [], by simp, rfl⟩
  | [], _ :: _, nn, st, h => by simp at h
  | _ :: _, [], nn, st, h => by simp at h
  | t :: ts, g :: gs, nn, st, h => by
    obtain ⟨d, hd⟩ := hg g { st with buf := st.buf ++ t }
    obtain ⟨n2, st2, d2, hb, he⟩ := executeLoop_append f hf hg rest restg hrest ts gs
      (nn + len t + (f g (bufWrite st t).2).1.1) (f g (bufWrite st t).2).2 (by simpa using h)
    refine ⟨n2, st2, t ++ d ++ d2, ?_, ?_⟩
    · rw [hb]
      simp only [bufWrite]
      rw [hd]
      simp
    · rw [← he]
      cases hts : ts ++ rest with
      | nil => simp [hrest] at hts
      | cons t2 ts2 =>
        simp [executeLoop, bufWrite, hf, hts]

/-- With the tag function that writes nothing, a run appends the texts and nothing else. -/
theorem executeLoop_noop :
    ∀ (texts tags : List GoString) (nn : Nat) (st : RenderState),
      texts.length = tags.length + 1 →
      ∃ n, executeLoop (fun _ st => ((0, none), st)) texts tags nn st =
        some ((n, none), { st with buf := st.buf ++ texts.flatten })
  | [], tags, nn, st, h => by simp at h
  | [last], tags, nn, st, _ => ⟨nn + len last, by simp [executeLoop, bufWrite]⟩
  | t :: t2 :: ts, [], nn, st, h => by simp at h
  | t :: t2 :: ts, g :: gs, nn, st, h => by
    obtain ⟨n, ih⟩ := executeLoop_noop (t2 :: ts) gs (nn + len t + 0)
      { st with buf := st.buf ++ t } (by simpa using h)
    refine ⟨n, ?_⟩
    simp only [executeLoop, bufWrite]
    rw [ih]
    simp

/-! ## lemmas: the tag switch -/

/-- The tag switch never returns an error. -/
theorem tagSwitch_noErr (env : Env) (lc : LoggerConfig) (ctx : Context) (req : Request)
    (res : Response) (startTime stop : Time) (g : GoString) (st : RenderState) :
    (tagSwitch env lc ctx req res startTime stop g st).1.2 = none := by
  unfold tagSwitch
  cases switchCase g <;> simp only [bufWrite, renderNow] <;> (try split) <;> rfl

/-- The tag switch only appends to the buffer. -/
theorem tagSwitch_grows (env : Env) (lc : LoggerConfig) (ctx : Context) (req : Request)
    (res : Response) (startTime stop : Time) (g : GoString) (st : RenderState) :
    ∃ d, (tagSwitch env lc ctx req res startTime stop g st).2.buf = st.buf ++ d := by
  unfold tagSwitch
  cases switchCase g <;> simp only [bufWrite, renderNow] <;> (try split) <;> first
    | exact ⟨_, rfl⟩
    | exact ⟨[], (List.append_nil _).symm⟩

/-- The tag function of a render, bound context or not, never returns an error. -/
theorem templateTagSwitcher_noErr (env : Env) (lc : LoggerConfig) (ctxs : Nat → Context)
    (startTime : Time) (clock : Nat) (g : GoString) (st : RenderState) :
    ((lc.templateTagSwitcher env ctxs startTime clock).1 g st).1.2 = none := by
  unfold LoggerConfig.templateTagSwitcher
  split
  · rfl
  · split
    · rfl
    · exact tagSwitch_noErr _ _ _ _ _ _ _ _ _

/-- The tag function of a render only appends to the buffer. -/
theorem templateTagSwitcher_grows (env : Env) (lc : LoggerConfig) (ctxs : Nat → Context)
    (startTime : Time) (clock : Nat) (g : GoString) (st : RenderState) :
    ∃ d, ((lc.templateTagSwitcher env ctxs startTime clock).1 g st).2.buf = st.buf ++ d := by
  unfold LoggerConfig.templateTagSwitcher
  split
  · exact ⟨[], (List.append_nil _).symm⟩
  · split
    · exact ⟨[], (List.append_nil _).symm⟩
    · exact tagSwitch_grows _ _ _ _ _ _ _ _ _

/-- Executing a template built by `New` never panics and never fails, whatever the bound
context. -/
theorem ExecuteFunc_total (fmt : GoString) (t : Template)
    (ht : New fmt startTag endTag = some t) (f : TagFunc)
    (hf : ∀ g st, (f g st).1.2 = none) (st : RenderState) :
    ∃ n st1, t.ExecuteFunc f st = some ((n, none), st1) := by
  unfold Template.ExecuteFunc
  rcases (New_shape fmt t ht).2 with h | h
  · rw [if_pos h.1]
    exact ⟨_, _, rfl⟩
  · have hne : t.texts ≠ [] := by
      intro h0
      rw [h0] at h
      simp at h
    rw [if_neg hne]
    exact executeLoop_total f hf _ _ _ _ h.1

/-- Rendering with a template built by `New` returns bytes and a nil error, and changes
nothing in the world but the count of clock readings. -/
theorem DefaultLogger_total (env : Env) (w : World) (startTime : Time) (fmt : GoString)
    (ht : New fmt startTag endTag = some w.conf.template) :
    ∃ line k, DefaultLogger env w startTime = some ((line, none), { w with clock := k }) := by
  unfold DefaultLogger
  obtain ⟨n, st1, h⟩ := ExecuteFunc_total fmt _ ht
    (w.conf.templateTagSwitcher env w.ctxs startTime w.clock).1
    (templateTagSwitcher_noErr env w.conf w.ctxs startTime w.clock)
    { buf := [], err := none,
      clock := (w.conf.templateTagSwitcher env w.ctxs startTime w.clock).2 }
  simp only [h]
  exact ⟨_, _, rfl⟩

/-! ## the emission decision -/

/-- The condition of the `if` in the after-function, in the words of the
specification. -/
theorem emission_condition (status : Int) (host : GoString) :
    (decide (status ≠ StatusOK) || Contains host "localhost".toList) = true ↔
      (status ≠ 200 ∨ "localhost".toList <:+: host) := by
  rw [Bool.or_eq_true, decide_eq_true_iff, Contains_iff]
  rfl

/-- C1: the function `BaseLogger` registers with `Response.After` renders and writes one
log line exactly when the status of its request is not 200 or the request host contains
`localhost`; in the remaining case, status 200 on a host without `localhost`, it leaves
the world, log output included, as it was. -/
theorem afterHook_emits_iff (env : Env) (h : HookClosure) (w : World) (fmt : GoString)
    (ht : New fmt startTag endTag = some w.conf.template) :
    ∃ w1, afterHook env h w = some w1 ∧
      ((∃ line k, DefaultLogger env w h.startTime = some ((line, none), { w with clock := k }) ∧
          w1 = { w with clock := k, output := w.output ++ [line] }) ↔
        ((w.ctxs h.c).response.Status ≠ 200 ∨
          "localhost".toList <:+: (w.ctxs h.c).request.Host)) ∧
      (¬ ((w.ctxs h.c).response.Status ≠ 200 ∨
          "localhost".toList <:+: (w.ctxs h.c).request.Host) → w1 = w) := by
  obtain ⟨line, k, hd⟩ := DefaultLogger_total env w h.startTime fmt ht
  by_cases hc : (w.ctxs h.c).response.Status ≠ 200 ∨
      "localhost".toList <:+: (w.ctxs h.c).request.Host
  · have hb := (emission_condition _ _).mpr hc
    refine ⟨{ w with clock := k, output := w.output ++ [line] }, ?_, ?_, fun hn => absurd hc hn⟩
    · unfold afterHook
      simp only [hb, if_true, hd]
    · exact ⟨fun _ => hc, fun _ => ⟨line, k, hd, rfl⟩⟩
  · have hb : ¬ ((decide ((w.ctxs h.c).response.Status ≠ StatusOK) ||
        Contains (w.ctxs h.c).request.Host "localhost".toList) = true) :=
      fun hb => hc ((emission_condition _ _).mp hb)
    refine ⟨w, ?_, ?_, fun _ => rfl⟩
    · simp only [afterHook]
      rw [if_neg hb]
    · constructor
      · rintro ⟨line1, k1, _, hw⟩
        have := congrArg (fun x => x.output.length) hw
        simp at this
      · exact fun h1 => absurd h1 hc

/-- C1 at the cases of the tests and at the override: a 200 response on `example.com`
is not logged (the instance of the theorem, and its output evaluated), a 404 response on
`example.com` is logged, and so is a 200 response on `localhost:8080`. -/
theorem afterHook_emits_iff_witness :
    (∃ w1, afterHook testEnv { c := 0, startTime := 0 }
        (worldOf (confOf statusFormat (some 0) true) (testContext "/".toList 200)) = some w1 ∧
      ((∃ line k, DefaultLogger testEnv
            (worldOf (confOf statusFormat (some 0) true) (testContext "/".toList 200)) 0 =
              some ((line, none),
                { worldOf (confOf statusFormat (some 0) true) (testContext "/".toList 200) with
                  clock := k }) ∧
          w1 = { worldOf (confOf statusFormat (some 0) true) (testContext "/".toList 200) with
                 clock := k, output := [] ++ [line] }) ↔
        ((200 : Int) ≠ 200 ∨ "localhost".toList <:+: "example.com".toList)) ∧
      (¬ ((200 : Int) ≠ 200 ∨ "localhost".toList <:+: "example.com".toList) →
        w1 = worldOf (confOf statusFormat (some 0) true) (testContext "/".toList 200))) ∧
    (afterHook testEnv { c := 0, startTime := 0 }
        (worldOf (confOf statusFormat (some 0) true) (testContext "/".toList 200))).map
        (fun w1 => w1.output) = some [] ∧
    (afterHook testEnv { c := 0, startTime := 0 }
        (worldOf (confOf statusFormat (some 0) true) (testContext "/".toList 404))).map
        (fun w1 => w1.output) = some ["\x7b\"status\":404\x7d".toList] ∧
    (afterHook testEnv { c := 0, startTime := 0 }
        (worldOf (confOf statusFormat (some 0) true) (localContext 200))).map
        (fun w1 => w1.output) = some ["\x7b\"status\":200\x7d".toList] :=
  ⟨afterHook_emits_iff testEnv { c := 0, startTime := 0 }
      (worldOf (confOf statusFormat (some 0) true) (testContext "/".toList 200)) statusFormat
      (by decide), by decide, by decide, by decide⟩

/-! ## rendering without a bound context -/

/-- C2: for every well-formed format string, the configuration `NewLoggerConfig` builds
from it renders, as long as no context was bound, to exactly the format string with its
placeholders taken out and the literal text kept in order, with a nil error, for every
start time; the render leaves the world as it was. -/
theorem DefaultLogger_unbound (env : Env) (cfg : MiddlewareLoggerConfig) (tty : Bool)
    (ctxs : Nat → Context) (clock : Nat) (output : List GoString)
    (errors : List (Nat × GoError)) (startTime : Time)
    (hwf : wellFormed false cfg.Format = true) :
    ∃ lc, NewLoggerConfig cfg tty = some lc ∧
      DefaultLogger env
          { conf := lc, ctxs := ctxs, clock := clock, output := output, errors := errors }
          startTime =
        some ((stripPlaceholders false cfg.Format, none),
          { conf := lc, ctxs := ctxs, clock := clock, output := output, errors := errors }) := by
  obtain ⟨t, hnew, _, hshape⟩ := New_of_wellFormed cfg.Format hwf
  refine ⟨{ config := cfg, ctx := none, template := t,
            colorer := Color.SetOutput (colorNew tty) cfg.OutputIsTerminal }, ?_, ?_⟩
  · simp only [NewLoggerConfig, hnew]
  · have hsw : ∀ (st : Time) (k : Nat),
        LoggerConfig.templateTagSwitcher env
          { config := cfg, ctx := none, template := t,
            colorer := Color.SetOutput (colorNew tty) cfg.OutputIsTerminal } ctxs st k =
          (fun _ st => ((0, none), st), k) := by
      intro st k
      simp [LoggerConfig.templateTagSwitcher, LoggerConfig.isContextValid]
    simp only [DefaultLogger, hsw, Template.ExecuteFunc]
    rcases hshape with ⟨h0, hs⟩ | ⟨hl, hj⟩
    · have ht : t.template = cfg.Format := (New_shape _ _ hnew).1
      simp [h0, bufWrite, ht, hs]
    · have hne : t.texts ≠ [] := by
        intro h0
        rw [h0] at hl
        simp at hl
      obtain ⟨n, hn⟩ := executeLoop_noop t.texts t.tags 0
        { buf := [], err := none, clock := clock } hl
      simp [hne, hn, hj]

set_option maxRecDepth 100000 in
/-- The configuration of the tests is what `NewLoggerConfig` returns for the test
format. -/
theorem NewLoggerConfig_test : NewLoggerConfig testLoggerConfig true = some testConf := by
  decide

set_option maxRecDepth 100000 in
/-- C2 on the example of the specification, the format with the single `status`
placeholder, which renders unbound to the same text with nothing after the colon; and
on the test of the repository, whose format renders unbound to the expected content
followed by the newline of the format. -/
theorem DefaultLogger_unbound_witness :
    wellFormed false statusFormat = true ∧
    stripPlaceholders false statusFormat = "\x7b\"status\":\x7d".toList ∧
    (∃ lc, NewLoggerConfig
        { Format := statusFormat, CustomTimeFormat := [], OutputIsTerminal := false } true =
          some lc ∧
      DefaultLogger testEnv
          { conf := lc, ctxs := fun _ => testContext "/".toList 200, clock := 0, output := [],
            errors := [] } 5 =
        some ((stripPlaceholders false statusFormat, none),
          { conf := lc, ctxs := fun _ => testContext "/".toList 200, clock := 0, output := [],
            errors := [] })) ∧
    (DefaultLogger testEnv (worldOf testConf (testContext "/".toList 200)) 5).map
        (fun r => r.1) = some (testUnboundContent ++ "\n".toList, none) :=
  ⟨by decide, by decide,
    DefaultLogger_unbound testEnv
      { Format := statusFormat, CustomTimeFormat := [], OutputIsTerminal := false } true
      (fun _ => testContext "/".toList 200) 0 [] [] 5 (by decide), by decide⟩

/-! ## unknown tags -/

theorem switchCase_unknown (tag : GoString) (hnot : tag ∉ enumeratedTags)
    (hh : HasPrefix tag "header:".toList = false) (hq : HasPrefix tag "query:".toList = false)
    (hf : HasPrefix tag "form:".toList = false) (hc : HasPrefix tag "cookie:".toList = false) :
    switchCase tag = SwitchCase.unknown := by
  simp only [enumeratedTags, List.mem_cons, List.mem_singleton, not_or, List.not_mem_nil,
    or_false] at hnot
  simp only [switchCase, hnot, hh, hq, hf, hc, if_false, Bool.false_eq_true]

/-- C3: a tag that is none of the twenty enumerated tags and belongs to none of the four
dynamic families is resolved, with a context bound or not, by writing nothing: the tag
function returns zero bytes and a nil error and leaves the buffer and the rest of the
render state alone. A template made of one such placeholder between two literals
therefore renders to the two literals, and `DefaultLogger` returns a nil error. -/
theorem unknown_tag_resolves_empty (env : Env) (w : World) (startTime : Time)
    (fmt tag pre post : GoString) (st : RenderState)
    (hnot : tag ∉ enumeratedTags)
    (hh : HasPrefix tag "header:".toList = false) (hq : HasPrefix tag "query:".toList = false)
    (hf : HasPrefix tag "form:".toList = false) (hc : HasPrefix tag "cookie:".toList = false)
    (ht : New fmt startTag endTag = some w.conf.template) :
    (w.conf.templateTagSwitcher env w.ctxs startTime w.clock).1 tag st = ((0, none), st) ∧
    Template.ExecuteFunc
        { template := pre ++ startTag ++ tag ++ endTag ++ post, startTag := startTag,
          endTag := endTag, texts := [pre, post], tags := [tag] }
        (w.conf.templateTagSwitcher env w.ctxs startTime w.clock).1 st =
      some ((len pre + len post, none), { st with buf := st.buf ++ pre ++ post }) ∧
    ∃ line k, DefaultLogger env w startTime = some ((line, none), { w with clock := k }) := by
  have h1 : (w.conf.templateTagSwitcher env w.ctxs startTime w.clock).1 tag st =
      ((0, none), st) := by
    unfold LoggerConfig.templateTagSwitcher
    split
    · rfl
    · split
      · rfl
      · simp only [tagSwitch, switchCase_unknown tag hnot hh hq hf hc]
  have h1b : (w.conf.templateTagSwitcher env w.ctxs startTime w.clock).1 tag
      { st with buf := st.buf ++ pre } = ((0, none), { st with buf := st.buf ++ pre }) := by
    unfold LoggerConfig.templateTagSwitcher
    split
    · rfl
    · split
      · rfl
      · simp only [tagSwitch, switchCase_unknown tag hnot hh hq hf hc]
  refine ⟨h1, ?_, DefaultLogger_total env w startTime fmt ht⟩
  simp [Template.ExecuteFunc, executeLoop, bufWrite, h1b]

/-- C3 on the tag `nonexistent`, with a context bound. -/
theorem unknown_tag_resolves_empty_witness :
    ((confOf statusFormat (some 0) true).templateTagSwitcher testEnv
        (fun _ => testContext "/".toList 404) 0 0).1 "nonexistent".toList
        { buf := "a".toList, err := none, clock := 1 } =
      ((0, none), { buf := "a".toList, err := none, clock := 1 }) ∧
    Template.ExecuteFunc
        { template := "x=".toList ++ startTag ++ "nonexistent".toList ++ endTag ++ ";".toList,
          startTag := startTag, endTag := endTag, texts := ["x=".toList, ";".toList],
          tags := ["nonexistent".toList] }
        ((confOf statusFormat (some 0) true).templateTagSwitcher testEnv
          (fun _ => testContext "/".toList 404) 0 0).1
        { buf := "a".toList, err := none, clock := 1 } =
      some ((len "x=".toList + len ";".toList, none),
        { buf := "a".toList ++ "x=".toList ++ ";".toList, err := none, clock := 1 }) ∧
    ∃ line k, DefaultLogger testEnv
        (worldOf (confOf statusFormat (some 0) true) (testContext "/".toList 404)) 0 =
      some ((line, none),
        { worldOf (confOf statusFormat (some 0) true) (testContext "/".toList 404) with
          clock := k }) :=
  unknown_tag_resolves_empty testEnv
    (worldOf (confOf statusFormat (some 0) true) (testContext "/".toList 404)) 0
    statusFormat "nonexistent".toList "x=".toList ";".toList
    { buf := "a".toList, err := none, clock := 1 }
    (by decide) (by decide) (by decide) (by decide) (by decide) (by decide)

/-! ## two requests on one configuration -/

/-- C4, evaluated on two requests that share one configuration. Alone, request A
(`GET /a` on `a.example`, answered 404) is logged with its own fields. When request B
(`POST /b` on `b.example`, status 500) binds its context after A did and before A's
response is written, the line written by A's after-function carries B's host, method,
URI and status. -/
theorem shared_context_renders_other_request :
    (BaseLogger testEnv (testErrorHandler testEnv) (fun h => h) (writeResponse testEnv 404) 0
        twoRequests).map (fun r => r.2.output) =
      some ["\"host\":\"a.example\",\"method\":\"GET\",\"uri\":\"/a\",\"status\":404".toList] ∧
    (BaseLogger testEnv (testErrorHandler testEnv) (fun h => h)
        (writeResponseAfterOtherBind testEnv 404) 0 twoRequests).map (fun r => r.2.output) =
      some ["\"host\":\"b.example\",\"method\":\"POST\",\"uri\":\"/b\",\"status\":500".toList] := by
  constructor <;> rfl

/-! ## latency -/

theorem Time.Sub_eq_min (stop startTime : Int) (h : startTime ≤ stop) :
    Time.Sub stop startTime = min (stop - startTime) (2 ^ 63 - 1) := by
  unfold Time.Sub maxDuration minDuration
  by_cases h1 : stop - startTime > 2 ^ 63 - 1
  · rw [if_pos h1, min_eq_right (le_of_lt h1)]
  · have h2 : ¬ stop - startTime < -(2 ^ 63) := by
      have : (0 : Int) ≤ stop - startTime := sub_nonneg.mpr h
      have : (-(2 ^ 63) : Int) < 0 := by norm_num
      linarith
    rw [if_neg h1, if_neg h2, min_eq_left (not_lt.mp h1)]

theorem switchCase_latency : switchCase latency = SwitchCase.latency := by decide

theorem switchCase_latencyHuman : switchCase latencyHuman = SwitchCase.latencyHuman := by
  decide

/-- C5 as stated fails: with the zero `time.Time` as start time and a clock reading of
2026 as `stop`, `start <= stop` holds but `latency` writes `9223372036854775807`, not
the 63929347200000000000 nanoseconds between the two. -/
theorem latency_not_difference :
    zeroTime ≤ (frozenEnv someDay2026).now 0 ∧
    (((confOf statusFormat (some 0) true).templateTagSwitcher (frozenEnv someDay2026)
        (fun _ => testContext "/".toList 200) zeroTime 0).1 latency
        { buf := [], err := none, clock := 1 }).2.buf = "9223372036854775807".toList ∧
    FormatInt ((frozenEnv someDay2026).now 0 - zeroTime) = "63929347200000000000".toList ∧
    (((confOf statusFormat (some 0) true).templateTagSwitcher (frozenEnv someDay2026)
        (fun _ => testContext "/".toList 200) zeroTime 0).1 latency
        { buf := [], err := none, clock := 1 }).2.buf ≠
      FormatInt ((frozenEnv someDay2026).now 0 - zeroTime) := by
  refine ⟨by decide, by decide, by decide, by decide⟩

/-- C5, amended: with a context bound and `stop`, the clock reading taken when the tag
function is built, not before the start time, `latency` writes the decimal of
`d = min (stop - start) (2^63 - 1)` nanoseconds and `latency_human` formats the same `d`;
`d` is `stop - start` whenever that fits a `time.Duration`, it is non-negative, and on a
clock that does not run backwards it is at most the interval from the start time to
any reading taken at or after `stop`. -/
theorem latency_saturating (env : Env) (w : World) (p : Nat) (startTime : Time)
    (st : RenderState) (hb : w.conf.ctx = some p) (hle : startTime ≤ env.now w.clock)
    (hmono : Monotone env.now) :
    (w.conf.templateTagSwitcher env w.ctxs startTime w.clock).1 latency st =
      ((len (FormatInt (min (env.now w.clock - startTime) (2 ^ 63 - 1))), none),
        { st with buf := st.buf ++ FormatInt (min (env.now w.clock - startTime) (2 ^ 63 - 1)) }) ∧
    (w.conf.templateTagSwitcher env w.ctxs startTime w.clock).1 latencyHuman st =
      ((len (env.durationString (min (env.now w.clock - startTime) (2 ^ 63 - 1))), none),
        { st with buf := st.buf ++
            env.durationString (min (env.now w.clock - startTime) (2 ^ 63 - 1)) }) ∧
    (env.now w.clock - startTime ≤ 2 ^ 63 - 1 →
      min (env.now w.clock - startTime) (2 ^ 63 - 1) = env.now w.clock - startTime) ∧
    0 ≤ min (env.now w.clock - startTime) (2 ^ 63 - 1) ∧
    (∀ k, w.clock ≤ k →
      min (env.now w.clock - startTime) (2 ^ 63 - 1) ≤ env.now k - startTime) := by
  have hsw : w.conf.templateTagSwitcher env w.ctxs startTime w.clock =
      (tagSwitch env w.conf (w.ctxs p) (w.ctxs p).request (w.ctxs p).response startTime
        (env.now w.clock), w.clock + 1) := by
    simp [LoggerConfig.templateTagSwitcher, LoggerConfig.isContextValid, hb]
  rw [hsw]
  refine ⟨?_, ?_, fun h => min_eq_left h, ?_, ?_⟩
  · simp only [tagSwitch, switchCase_latency, bufWrite, Time.Sub_eq_min _ _ hle]
  · simp only [tagSwitch, switchCase_latencyHuman, bufWrite, Time.Sub_eq_min _ _ hle]
  · exact le_min (sub_nonneg.mpr hle) (by norm_num)
  · intro k hk
    exact le_trans (min_le_left _ _) (sub_le_sub_right (hmono hk) _)

theorem testEnv_monotone : Monotone testEnv.now := by
  intro a b h
  show (1000000 : Int) * (a : Int) ≤ 1000000 * (b : Int)
  have : (a : Int) ≤ (b : Int) := by exact_mod_cast h
  omega

/-- C5, amended, at a request that started at instant 0 and is rendered at the third
reading of a clock that advances one millisecond per reading. -/
theorem latency_saturating_witness :
    (({ worldOf (confOf statusFormat (some 0) true) (testContext "/".toList 404) with
        clock := 3 }).conf.templateTagSwitcher testEnv (fun _ => testContext "/".toList 404)
        0 3).1 latency { buf := [], err := none, clock := 4 } =
      ((len (FormatInt (min (testEnv.now 3 - 0) (2 ^ 63 - 1))), none),
        { buf := [] ++ FormatInt (min (testEnv.now 3 - 0) (2 ^ 63 - 1)), err := none,
          clock := 4 }) ∧
    FormatInt (min (testEnv.now 3 - 0) (2 ^ 63 - 1)) = "3000000".toList :=
  ⟨(latency_saturating testEnv
      { worldOf (confOf statusFormat (some 0) true) (testContext "/".toList 404) with
        clock := 3 } 0 0 { buf := [], err := none, clock := 4 } rfl (by decide)
      testEnv_monotone).1, by decide⟩

/-! ## the tag function of a bound context -/

/-- With the context object `p` bound, the tag function of a render is the tag switch
over the request and response of `p`, with `stop` read from the clock. -/
theorem templateTagSwitcher_bound (env : Env) (lc : LoggerConfig) (ctxs : Nat → Context)
    (startTime : Time) (clock p : Nat) (hb : lc.ctx = some p) :
    lc.templateTagSwitcher env ctxs startTime clock =
      (tagSwitch env lc (ctxs p) (ctxs p).request (ctxs p).response startTime (env.now clock),
        clock + 1) := by
  simp [LoggerConfig.templateTagSwitcher, LoggerConfig.isContextValid, hb]

/-! ## the error tag -/

theorem slice_jsonMarshalString (msg : GoString) :
    slice (jsonMarshalString msg) 1 ((jsonMarshalString msg).length - 1) = jsonEscape msg := by
  unfold slice jsonMarshalString
  have h1 : (['"'] ++ jsonEscape msg ++ ['"']).length - 1 = (['"'] ++ jsonEscape msg).length := by
    simp
  rw [h1, List.take_left]
  simp

theorem switchCase_tagErr : switchCase tagErr = SwitchCase.tagErr := by decide

/-- C6: with a context bound, the `error` tag looks at the error variable of the
render. When it holds an error, the tag writes the JSON escaping of the error's message,
that is `json.Marshal` of the message without its first and last character, which are the
two quotes; a quote or a backslash in the message arrives with a backslash before it.
When it holds none, the tag writes nothing and returns zero bytes and a nil error. -/
theorem error_tag_writes_escaped (env : Env) (w : World) (p : Nat) (startTime : Time)
    (buf : GoString) (e : Option GoError) (clock : Nat) (hb : w.conf.ctx = some p) :
    (w.conf.templateTagSwitcher env w.ctxs startTime w.clock).1 tagErr
        { buf := buf, err := e, clock := clock } =
      (match e with
       | some msg => ((len (jsonEscape msg), none),
           { buf := buf ++ jsonEscape msg, err := some msg, clock := clock })
       | none => ((0, none), { buf := buf, err := none, clock := clock })) ∧
    (∀ msg, jsonMarshalString msg = ['"'] ++ jsonEscape msg ++ ['"']) ∧
    (∀ msg, jsonEscape msg = msg.flatMap jsonEscapeRune) ∧
    jsonEscapeRune '"' = ['\\', '"'] ∧ jsonEscapeRune '\\' = ['\\', '\\'] := by
  rw [templateTagSwitcher_bound env w.conf w.ctxs startTime w.clock p hb]
  refine ⟨?_, fun _ => rfl, fun _ => rfl, by decide, by decide⟩
  cases e with
  | none => simp only [tagSwitch, switchCase_tagErr]
  | some msg => simp only [tagSwitch, switchCase_tagErr, bufWrite, slice_jsonMarshalString]

/-- C6 on a message with a quote and a backslash in it. -/
theorem error_tag_writes_escaped_witness :
    ((confOf statusFormat (some 0) true).templateTagSwitcher testEnv
        (fun _ => testContext "/".toList 404) 0 0).1 tagErr
        { buf := "\"".toList, err := some "a\"b\\c".toList, clock := 1 } =
      ((len (jsonEscape "a\"b\\c".toList), none),
        { buf := "\"".toList ++ jsonEscape "a\"b\\c".toList, err := some "a\"b\\c".toList,
          clock := 1 }) ∧
    jsonEscape "a\"b\\c".toList = "a\\\"b\\\\c".toList :=
  ⟨(error_tag_writes_escaped testEnv
      (worldOf (confOf statusFormat (some 0) true) (testContext "/".toList 404)) 0 0
      "\"".toList (some "a\"b\\c".toList) 1 rfl).1, by decide⟩

/-! ## the status tag -/

theorem switchCase_status : switchCase status = SwitchCase.status := by decide

theorem infix_of_outer (n : GoString) (c : Color) (msg : Int) :
    FormatInt msg <:+: Color.outer n c msg := by
  unfold Color.outer
  split
  · exact List.infix_refl _
  · exact ⟨"\x1b[".toList ++ n ++ "m".toList, "\x1b[0m".toList, by simp⟩

/-- C7: with a context bound, the `status` tag writes the decimal of the response status
`n`, as it is when colouring is disabled, and otherwise between the ANSI sequence of a
colour and the reset sequence: red (31) from 500 on, yellow (33) from 400 to 499, cyan
(36) from 300 to 399 and green (32) below 300. The decimal of `n` is part of the output
in every case, and a 404 response with colouring disabled renders the example format
to the text with `404` after the colon. -/
theorem status_tag_colour (env : Env) (w : World) (p : Nat) (startTime : Time)
    (st : RenderState) (hb : w.conf.ctx = some p) :
    ∃ out, (w.conf.templateTagSwitcher env w.ctxs startTime w.clock).1 status st =
        ((len out, none), { st with buf := st.buf ++ out }) ∧
      FormatInt (w.ctxs p).response.Status <:+: out ∧
      (w.conf.colorer.disabled = true → out = FormatInt (w.ctxs p).response.Status) ∧
      (w.conf.colorer.disabled = false →
        (500 ≤ (w.ctxs p).response.Status →
          out = "\x1b[31m".toList ++ FormatInt (w.ctxs p).response.Status ++ "\x1b[0m".toList) ∧
        (400 ≤ (w.ctxs p).response.Status → (w.ctxs p).response.Status < 500 →
          out = "\x1b[33m".toList ++ FormatInt (w.ctxs p).response.Status ++ "\x1b[0m".toList) ∧
        (300 ≤ (w.ctxs p).response.Status → (w.ctxs p).response.Status < 400 →
          out = "\x1b[36m".toList ++ FormatInt (w.ctxs p).response.Status ++ "\x1b[0m".toList) ∧
        ((w.ctxs p).response.Status < 300 →
          out = "\x1b[32m".toList ++ FormatInt (w.ctxs p).response.Status ++
            "\x1b[0m".toList)) := by
  rw [templateTagSwitcher_bound env w.conf w.ctxs startTime w.clock p hb]
  refine ⟨_, by simp only [tagSwitch, switchCase_status, bufWrite]; rfl, ?_, ?_, ?_⟩
  · simp only [Color.Red, Color.Yellow, Color.Cyan, Color.Green]
    split_ifs <;> exact infix_of_outer _ _ _
  · intro hd
    simp only [Color.Red, Color.Yellow, Color.Cyan, Color.Green, Color.outer, hd, if_true]
    split_ifs <;> rfl
  · intro hd
    have h5 : httpStatus500 = 500 := rfl
    have h4 : httpStatus400 = 400 := rfl
    have h3 : httpStatus300 = 300 := rfl
    simp only [Color.Red, Color.Yellow, Color.Cyan, Color.Green, Color.outer, hd, h5, h4, h3]
    refine ⟨fun h => ?_, fun h h' => ?_, fun h h' => ?_, fun h => ?_⟩
    · rw [if_pos h]
      simp
    · rw [if_neg (not_le.mpr h'), if_pos h]
      simp
    · rw [if_neg (by omega), if_neg (not_le.mpr h'), if_pos h]
      simp
    · rw [if_neg (by omega), if_neg (by omega), if_neg (by omega)]
      simp

/-- C7 on a 404 response: with colouring disabled the example format renders to the
JSON object with status 404; with colouring enabled the digits sit between the yellow
and the reset sequence. -/
theorem status_tag_colour_witness :
    (∃ out, ((confOf statusFormat (some 0) false).templateTagSwitcher testEnv
          (fun _ => testContext "/".toList 404) 0 0).1 status
          { buf := [], err := none, clock := 1 } =
        ((len out, none), { buf := [] ++ out, err := none, clock := 1 }) ∧
      FormatInt 404 <:+: out ∧
      ((confOf statusFormat (some 0) false).colorer.disabled = true → out = FormatInt 404) ∧
      ((confOf statusFormat (some 0) false).colorer.disabled = false →
        ((500 : Int) ≤ 404 →
          out = "\x1b[31m".toList ++ FormatInt 404 ++ "\x1b[0m".toList) ∧
        ((400 : Int) ≤ 404 → (404 : Int) < 500 →
          out = "\x1b[33m".toList ++ FormatInt 404 ++ "\x1b[0m".toList) ∧
        ((300 : Int) ≤ 404 → (404 : Int) < 400 →
          out = "\x1b[36m".toList ++ FormatInt 404 ++ "\x1b[0m".toList) ∧
        ((404 : Int) < 300 →
          out = "\x1b[32m".toList ++ FormatInt 404 ++ "\x1b[0m".toList))) ∧
    (DefaultLogger testEnv
        (worldOf (confOf statusFormat (some 0) true) (testContext "/".toList 404)) 0).map
        (fun r => r.1) = some ("\x7b\"status\":404\x7d".toList, none) ∧
    (DefaultLogger testEnv
        (worldOf (confOf statusFormat (some 0) false) (testContext "/".toList 404)) 0).map
        (fun r => r.1) = some ("\x7b\"status\":\x1b[33m404\x1b[0m\x7d".toList, none) :=
  ⟨status_tag_colour testEnv
      (worldOf (confOf statusFormat (some 0) false) (testContext "/".toList 404)) 0 0
      { buf := [], err := none, clock := 1 } rfl, by decide, by decide⟩

/-! ## the bytes_in tag -/

theorem switchCase_bytesIn : switchCase bytesIn = SwitchCase.bytesIn := by decide

theorem canonical_ContentLength :
    CanonicalMIMEHeaderKey HeaderContentLength = "Content-Length".toList := by decide

/-- C10: with a context bound, the `bytes_in` tag writes the first value the request's
header map holds under `Content-Length` when there is one and it is not empty, and the
single character `0` when the map has no such entry, an entry without values, or an
empty first value. -/
theorem bytes_in_tag (env : Env) (w : World) (p : Nat) (startTime : Time) (st : RenderState)
    (hb : w.conf.ctx = some p) :
    (w.conf.templateTagSwitcher env w.ctxs startTime w.clock).1 bytesIn st =
      bufWrite st
        (match (w.ctxs p).request.Header "Content-Length".toList with
         | some (v :: _) => if v = [] then "0".toList else v
         | _ => "0".toList) := by
  rw [templateTagSwitcher_bound env w.conf w.ctxs startTime w.clock p hb]
  simp only [tagSwitch, switchCase_bytesIn, Header.Get, canonical_ContentLength]
  cases h : (w.ctxs p).request.Header "Content-Length".toList with
  | none => rfl
  | some vs =>
    cases vs with
    | nil => rfl
    | cons v vs => rfl

/-- C10 on a request with `Content-Length: 42` and on the request of the tests, which
has no such header. -/
theorem bytes_in_tag_witness :
    (((confOf statusFormat (some 0) true).templateTagSwitcher testEnv
        (fun _ => contextWithLength) 0 0).1 bytesIn { buf := [], err := none, clock := 1 } =
      bufWrite { buf := [], err := none, clock := 1 }
        (match contextWithLength.request.Header "Content-Length".toList with
         | some (v :: _) => if v = [] then "0".toList else v
         | _ => "0".toList)) ∧
    (((confOf statusFormat (some 0) true).templateTagSwitcher testEnv
        (fun _ => contextWithLength) 0 0).1 bytesIn
        { buf := [], err := none, clock := 1 }).2.buf = "42".toList ∧
    (((confOf statusFormat (some 0) true).templateTagSwitcher testEnv
        (fun _ => testContext "/".toList 200) 0 0).1 bytesIn
        { buf := [], err := none, clock := 1 }).2.buf = "0".toList :=
  ⟨bytes_in_tag testEnv (worldOf (confOf statusFormat (some 0) true) contextWithLength) 0 0
      { buf := [], err := none, clock := 1 } rfl, by decide, by decide⟩

/-! ## host, method and uri -/

theorem switchCase_host : switchCase host = SwitchCase.host := by decide

theorem switchCase_method : switchCase method = SwitchCase.method := by decide

theorem switchCase_uri : switchCase uri = SwitchCase.uri := by decide

/-- C8: with the context object `p` bound, the tags `host`, `method` and `uri` write
the host, the method and the request URI of `p`'s request. So when the template parsed
from the format has the three tags in a row, between the literals of the segment
`"host":"…","method":"…","uri":"…"`, the render succeeds and its output contains that
segment with the three values in place. -/
theorem host_method_uri_rendered (env : Env) (w : World) (p : Nat) (startTime : Time)
    (fmt : GoString) (tx tg tx2 tg2 : List GoString) (a b : GoString) (st : RenderState)
    (hb : w.conf.ctx = some p)
    (ht : New fmt startTag endTag = some w.conf.template)
    (htx : w.conf.template.texts =
      tx ++ ([a ++ "\"host\":\"".toList, "\",\"method\":\"".toList, "\",\"uri\":\"".toList,
              "\"".toList ++ b] ++ tx2))
    (htg : w.conf.template.tags = tg ++ ([host, method, uri] ++ tg2))
    (hlen : tx.length = tg.length) :
    (w.conf.templateTagSwitcher env w.ctxs startTime w.clock).1 host st =
      bufWrite st (w.ctxs p).request.Host ∧
    (w.conf.templateTagSwitcher env w.ctxs startTime w.clock).1 method st =
      bufWrite st (w.ctxs p).request.Method ∧
    (w.conf.templateTagSwitcher env w.ctxs startTime w.clock).1 uri st =
      bufWrite st (w.ctxs p).request.RequestURI ∧
    ∃ line k, DefaultLogger env w startTime = some ((line, none), { w with clock := k }) ∧
      ("\"host\":\"".toList ++ (w.ctxs p).request.Host ++ "\",\"method\":\"".toList ++
        (w.ctxs p).request.Method ++ "\",\"uri\":\"".toList ++
        (w.ctxs p).request.RequestURI ++ "\"".toList) <:+: line := by
  have hsw := templateTagSwitcher_bound env w.conf w.ctxs startTime w.clock p hb
  have hH : ∀ s, tagSwitch env w.conf (w.ctxs p) (w.ctxs p).request (w.ctxs p).response
      startTime (env.now w.clock) host s = bufWrite s (w.ctxs p).request.Host := by
    intro s
    simp only [tagSwitch, switchCase_host]
  have hM : ∀ s, tagSwitch env w.conf (w.ctxs p) (w.ctxs p).request (w.ctxs p).response
      startTime (env.now w.clock) method s = bufWrite s (w.ctxs p).request.Method := by
    intro s
    simp only [tagSwitch, switchCase_method]
  have hU : ∀ s, tagSwitch env w.conf (w.ctxs p) (w.ctxs p).request (w.ctxs p).response
      startTime (env.now w.clock) uri s = bufWrite s (w.ctxs p).request.RequestURI := by
    intro s
    simp only [tagSwitch, switchCase_uri]
  rw [hsw]
  refine ⟨hH st, hM st, hU st, ?_⟩
  obtain ⟨line, k, hd⟩ := DefaultLogger_total env w startTime fmt ht
  refine ⟨line, k, hd, ?_⟩
  -- follow the run of the template
  have hshape := (New_shape fmt _ ht).2
  have hne : w.conf.template.texts ≠ [] := by
    rw [htx]
    simp
  have hl : w.conf.template.texts.length = w.conf.template.tags.length + 1 := by
    rcases hshape with h | h
    · exact absurd h.1 hne
    · exact h.1
  have hl2 : (("\"".toList ++ b) :: tx2).length = tg2.length + 1 := by
    rw [htx, htg] at hl
    simp only [List.length_append, List.length_cons, List.length_nil] at hl ⊢
    omega
  unfold DefaultLogger at hd
  rw [hsw] at hd
  simp only [Template.ExecuteFunc, if_neg hne] at hd
  rw [htx, htg] at hd
  obtain ⟨n2, st2, d, hbuf, he⟩ := executeLoop_append
    (tagSwitch env w.conf (w.ctxs p) (w.ctxs p).request (w.ctxs p).response startTime
      (env.now w.clock))
    (tagSwitch_noErr _ _ _ _ _ _ _) (tagSwitch_grows _ _ _ _ _ _ _)
    ([a ++ "\"host\":\"".toList, "\",\"method\":\"".toList, "\",\"uri\":\"".toList,
      "\"".toList ++ b] ++ tx2) ([host, method, uri] ++ tg2) (by simp) tx tg 0
    { buf := [], err := none, clock := w.clock + 1 } hlen
  rw [he] at hd
  simp only [List.cons_append, List.nil_append, executeLoop, bufWrite, hH, hM, hU,
    List.append_eq] at hd
  obtain ⟨n3, st3, h3⟩ := executeLoop_total
    (tagSwitch env w.conf (w.ctxs p) (w.ctxs p).request (w.ctxs p).response startTime
      (env.now w.clock))
    (tagSwitch_noErr _ _ _ _ _ _ _) (("\"".toList ++ b) :: tx2) tg2
    (n2 + len (a ++ "\"host\":\"".toList) + len (w.ctxs p).request.Host +
      len "\",\"method\":\"".toList + len (w.ctxs p).request.Method +
      len "\",\"uri\":\"".toList + len (w.ctxs p).request.RequestURI)
    { buf := st2.buf ++ (a ++ "\"host\":\"".toList) ++ (w.ctxs p).request.Host ++
        "\",\"method\":\"".toList ++ (w.ctxs p).request.Method ++ "\",\"uri\":\"".toList ++
        (w.ctxs p).request.RequestURI, err := st2.err, clock := st2.clock } hl2
  obtain ⟨d3, hd3⟩ := executeLoop_grows _ (tagSwitch_grows _ _ _ _ _ _ _) _ _ _ _ _ _ h3
  rw [h3] at hd
  simp only [Option.some.injEq, Prod.mk.injEq] at hd
  rw [← hd.1.1, hd3, hbuf]
  exact ⟨d ++ a, b ++ d3, by simp⟩

set_option maxRecDepth 100000 in
/-- C8 on the test `TestLoggerConfig_DefaultLogger`: the request `GET
/context-has-been-set` on `example.com`, bound to the configuration of the tests,
renders to a line that contains the expected host, method and URI segment. -/
theorem host_method_uri_rendered_witness :
    ∃ line k, DefaultLogger testEnv
        (worldOf (testConf.SetContext 0) (testContext "/context-has-been-set".toList 200)) 0 =
        some ((line, none),
          { worldOf (testConf.SetContext 0)
              (testContext "/context-has-been-set".toList 200) with clock := k }) ∧
      "\"host\":\"example.com\",\"method\":\"GET\",\"uri\":\"/context-has-been-set\"".toList
        <:+: line :=
  (host_method_uri_rendered testEnv
    (worldOf (testConf.SetContext 0) (testContext "/context-has-been-set".toList 200)) 0 0
    testFormat
    ["\x7b\"time\":\"".toList, "\",\"id\":\"".toList, "\",\"remote_ip\":\"".toList]
    [timeRfc3339Nano, id, remoteIP]
    ["\",\"status\":".toList, ",\"error\":\"".toList, "\",\"latency\":".toList,
     ",\"latency_human\":\"".toList, "\",\"environment\":\"\",\"bytes_in\":".toList,
     ",\"bytes_out\":".toList, "\x7d\n".toList]
    [userAgent, status, tagErr, latency, latencyHuman, bytesIn, bytesOut]
    "\",".toList ",\"user_agent\":\"".toList { buf := [], err := none, clock := 0 }
    rfl (by decide) (by decide) (by decide) (by decide)).2.2.2

/-! ## rendering twice -/

/-- On a frozen clock the tag switch does not look at the count of clock readings:
from two states with the same buffer and the same error variable it returns the same
result and leaves the same buffer and error variable. -/
theorem tagSwitch_frozen (env : Env) (T : Time) (hfrozen : ∀ k, env.now k = T)
    (lc : LoggerConfig) (ctx : Context) (req : Request) (res : Response)
    (startTime stop : Time) (g : GoString) (st1 st2 : RenderState)
    (hbuf : st1.buf = st2.buf) (herr : st1.err = st2.err) :
    (tagSwitch env lc ctx req res startTime stop g st1).1 =
      (tagSwitch env lc ctx req res startTime stop g st2).1 ∧
    (tagSwitch env lc ctx req res startTime stop g st1).2.buf =
      (tagSwitch env lc ctx req res startTime stop g st2).2.buf ∧
    (tagSwitch env lc ctx req res startTime stop g st1).2.err =
      (tagSwitch env lc ctx req res startTime stop g st2).2.err := by
  unfold tagSwitch
  cases switchCase g <;> simp only [bufWrite, renderNow, hfrozen, hbuf, herr] <;>
    (try split) <;> simp [hbuf, herr]

/-- Two runs of a template from states with the same buffer and error variable, with a
tag function that does not look at the rest of the state, end alike. -/
theorem executeLoop_congr (f : TagFunc)
    (hf : ∀ g st1 st2, st1.buf = st2.buf → st1.err = st2.err →
      (f g st1).1 = (f g st2).1 ∧ (f g st1).2.buf = (f g st2).2.buf ∧
        (f g st1).2.err = (f g st2).2.err) :
    ∀ (texts tags : List GoString) (nn : Nat) (st1 st2 : RenderState),
      st1.buf = st2.buf → st1.err = st2.err →
      (executeLoop f texts tags nn st1).map (fun r => (r.1, r.2.buf)) =
        (executeLoop f texts tags nn st2).map (fun r => (r.1, r.2.buf))
  | [], tags, nn, st1, st2, _, _ => by simp [executeLoop]
  | [last], tags, nn, st1, st2, hb, _ => by simp [executeLoop, bufWrite, hb]
  | t :: t2 :: ts, [], nn, st1, st2, hb, _ => by simp [executeLoop, bufWrite, hb]
  | t :: t2 :: ts, g :: gs, nn, st1, st2, hb, he => by
    have h := hf g { st1 with buf := st1.buf ++ t } { st2 with buf := st2.buf ++ t }
      (by simp [hb]) he
    simp only [executeLoop, bufWrite]
    rw [h.1]
    cases h2 : (f g { st2 with buf := st2.buf ++ t }).1.2 with
    | some e => simp [h.2.1]
    | none =>
      simp only []
      exact executeLoop_congr f hf (t2 :: ts) gs _ _ _ h.2.1 h.2.2

theorem templateTagSwitcher_frozen (env : Env) (T : Time) (hfrozen : ∀ k, env.now k = T)
    (lc : LoggerConfig) (ctxs : Nat → Context) (startTime : Time) (clock : Nat)
    (g : GoString) (st1 st2 : RenderState) (hbuf : st1.buf = st2.buf)
    (herr : st1.err = st2.err) :
    ((lc.templateTagSwitcher env ctxs startTime clock).1 g st1).1 =
      ((lc.templateTagSwitcher env ctxs startTime clock).1 g st2).1 ∧
    ((lc.templateTagSwitcher env ctxs startTime clock).1 g st1).2.buf =
      ((lc.templateTagSwitcher env ctxs startTime clock).1 g st2).2.buf ∧
    ((lc.templateTagSwitcher env ctxs startTime clock).1 g st1).2.err =
      ((lc.templateTagSwitcher env ctxs startTime clock).1 g st2).2.err := by
  unfold LoggerConfig.templateTagSwitcher
  split
  · exact ⟨rfl, hbuf, herr⟩
  · split
    · exact ⟨rfl, hbuf, herr⟩
    · exact tagSwitch_frozen env T hfrozen _ _ _ _ _ _ _ _ _ hbuf herr

theorem templateTagSwitcher_clock (env : Env) (T : Time) (hfrozen : ∀ k, env.now k = T)
    (lc : LoggerConfig) (ctxs : Nat → Context) (startTime : Time) (c1 c2 : Nat) :
    (lc.templateTagSwitcher env ctxs startTime c1).1 =
      (lc.templateTagSwitcher env ctxs startTime c2).1 := by
  unfold LoggerConfig.templateTagSwitcher
  split
  · rfl
  · split
    · rfl
    · simp only [hfrozen]

/-- On a frozen clock the bytes and the error `DefaultLogger` returns do not depend on
how many clock readings were taken before. -/
theorem DefaultLogger_frozen (env : Env) (T : Time) (hfrozen : ∀ k, env.now k = T)
    (w : World) (startTime : Time) (c : Nat) :
    (DefaultLogger env { w with clock := c } startTime).map (fun r => r.1) =
      (DefaultLogger env w startTime).map (fun r => r.1) := by
  unfold DefaultLogger
  simp only [templateTagSwitcher_clock env T hfrozen w.conf w.ctxs startTime c w.clock,
    Template.ExecuteFunc]
  by_cases h0 : w.conf.template.texts = []
  · simp [h0, bufWrite]
  · simp only [if_neg h0]
    have h := executeLoop_congr (w.conf.templateTagSwitcher env w.ctxs startTime w.clock).1
      (fun g st1 st2 hb he =>
        templateTagSwitcher_frozen env T hfrozen w.conf w.ctxs startTime w.clock g st1 st2 hb he)
      w.conf.template.texts w.conf.template.tags 0
      { buf := [], err := none,
        clock := (w.conf.templateTagSwitcher env w.ctxs startTime c).2 }
      { buf := [], err := none,
        clock := (w.conf.templateTagSwitcher env w.ctxs startTime w.clock).2 } rfl rfl
    revert h
    cases executeLoop (w.conf.templateTagSwitcher env w.ctxs startTime w.clock).1
        w.conf.template.texts w.conf.template.tags 0
        { buf := [], err := none,
          clock := (w.conf.templateTagSwitcher env w.ctxs startTime c).2 } with
    | none =>
      cases executeLoop (w.conf.templateTagSwitcher env w.ctxs startTime w.clock).1
          w.conf.template.texts w.conf.template.tags 0
          { buf := [], err := none,
            clock := (w.conf.templateTagSwitcher env w.ctxs startTime w.clock).2 } with
      | none => intro _; rfl
      | some r2 => intro h; simp at h
    | some r1 =>
      cases executeLoop (w.conf.templateTagSwitcher env w.ctxs startTime w.clock).1
          w.conf.template.texts w.conf.template.tags 0
          { buf := [], err := none,
            clock := (w.conf.templateTagSwitcher env w.ctxs startTime w.clock).2 } with
      | none => intro h; simp at h
      | some r2 =>
        intro h
        simp only [Option.map_some', Option.some.injEq, Prod.mk.injEq] at h
        obtain ⟨hr, hbuf⟩ := h
        simp only [Option.map_some', hr]
        cases r2.1.2 with
        | some e => rfl
        | none => simp [hbuf]

/-- C9: on a frozen clock, with a template built by `New` and whatever context is bound,
`DefaultLogger` called twice in a row with the same start time returns the same bytes and
a nil error both times; the first call changes nothing in the world but the count of
clock readings, so the configuration and the bound context are as before. -/
theorem DefaultLogger_idempotent (env : Env) (T : Time) (w : World) (startTime : Time)
    (fmt : GoString) (ht : New fmt startTag endTag = some w.conf.template)
    (hfrozen : ∀ k, env.now k = T) :
    ∃ line k1 k2,
      DefaultLogger env w startTime = some ((line, none), { w with clock := k1 }) ∧
      DefaultLogger env { w with clock := k1 } startTime =
        some ((line, none), { w with clock := k2 }) := by
  obtain ⟨line1, k1, h1⟩ := DefaultLogger_total env w startTime fmt ht
  obtain ⟨line2, k2, h2⟩ := DefaultLogger_total env { w with clock := k1 } startTime fmt ht
  have h := DefaultLogger_frozen env T hfrozen w startTime k1
  rw [h1, h2] at h
  simp only [Option.map_some', Option.some.injEq, Prod.mk.injEq, and_true] at h
  subst h
  exact ⟨line2, k1, k2, h1, h2⟩

set_option maxRecDepth 100000 in
/-- C9 on the configuration and the request of the tests, the clock frozen at a day in
2026. -/
theorem DefaultLogger_idempotent_witness :
    ∃ line k1 k2,
      DefaultLogger (frozenEnv someDay2026)
          (worldOf (testConf.SetContext 0) (testContext "/".toList 404)) 0 =
        some ((line, none),
          { worldOf (testConf.SetContext 0) (testContext "/".toList 404) with clock := k1 }) ∧
      DefaultLogger (frozenEnv someDay2026)
          { worldOf (testConf.SetContext 0) (testContext "/".toList 404) with clock := k1 } 0 =
        some ((line, none),
          { worldOf (testConf.SetContext 0) (testContext "/".toList 404) with clock := k2 }) :=
  DefaultLogger_idempotent (frozenEnv someDay2026) someDay2026
    (worldOf (testConf.SetContext 0) (testContext "/".toList 404)) 0 testFormat
    (by decide) (fun _ => rfl)

/-! ## the id tag -/

theorem switchCase_id : switchCase id = SwitchCase.id := by decide

theorem canonical_XRequestID :
    CanonicalMIMEHeaderKey HeaderXRequestID = "X-Request-Id".toList := by decide

/-- `Header.Get` for the request id: the first value the map holds under the canonical
key `X-Request-Id`, or the empty string. -/
theorem Header.Get_XRequestID (h : Header) :
    Header.Get h HeaderXRequestID =
      (match h "X-Request-Id".toList with
       | some (v :: _) => v
       | _ => []) := by
  simp only [Header.Get, canonical_XRequestID]

/-- C11: with a context bound, the `id` tag writes the request's `X-Request-ID` header
value when that is not empty, and the response's `X-Request-ID` header value otherwise;
when neither header map has the entry it writes the empty string. The header value is
what `Header.Get` returns: the first value under the canonical key. -/
theorem id_tag (env : Env) (w : World) (p : Nat) (startTime : Time) (st : RenderState)
    (hb : w.conf.ctx = some p) :
    (Header.Get (w.ctxs p).request.Header HeaderXRequestID ≠ [] →
      (w.conf.templateTagSwitcher env w.ctxs startTime w.clock).1 id st =
        bufWrite st (Header.Get (w.ctxs p).request.Header HeaderXRequestID)) ∧
    (Header.Get (w.ctxs p).request.Header HeaderXRequestID = [] →
      (w.conf.templateTagSwitcher env w.ctxs startTime w.clock).1 id st =
        bufWrite st (Header.Get (w.ctxs p).response.header HeaderXRequestID)) ∧
    ((w.ctxs p).request.Header "X-Request-Id".toList = none →
      (w.ctxs p).response.header "X-Request-Id".toList = none →
      (w.conf.templateTagSwitcher env w.ctxs startTime w.clock).1 id st =
        ((0, none), { st with buf := st.buf ++ [] })) ∧
    (∀ h : Header, Header.Get h HeaderXRequestID =
      (match h "X-Request-Id".toList with
       | some (v :: _) => v
       | _ => [])) := by
  rw [templateTagSwitcher_bound env w.conf w.ctxs startTime w.clock p hb]
  refine ⟨fun h => ?_, fun h => ?_, fun h1 h2 => ?_, Header.Get_XRequestID⟩
  · simp only [tagSwitch, switchCase_id, if_neg h]
  · simp only [tagSwitch, switchCase_id, if_pos h]
  · have e1 : Header.Get (w.ctxs p).request.Header HeaderXRequestID = [] := by
      rw [Header.Get_XRequestID, h1]
    have e2 : Header.Get (w.ctxs p).response.header HeaderXRequestID = [] := by
      rw [Header.Get_XRequestID, h2]
    simp only [tagSwitch, switchCase_id, if_pos e1, e2, bufWrite]
    rfl

/-- C11 on a request that carries the id `req-1` while its response carries `res-7`,
on a request without an id whose response carries `res-7`, and on the request of the
tests, where neither carries one. -/
theorem id_tag_witness :
    (((confOf statusFormat (some 0) true).templateTagSwitcher testEnv (fun _ => richContext)
        0 0).1 id { buf := [], err := none, clock := 1 } =
      bufWrite { buf := [], err := none, clock := 1 }
        (Header.Get richContext.request.Header HeaderXRequestID)) ∧
    (((confOf statusFormat (some 0) true).templateTagSwitcher testEnv (fun _ => richContext)
        0 0).1 id { buf := [], err := none, clock := 1 }).2.buf = "req-1".toList ∧
    (((confOf statusFormat (some 0) true).templateTagSwitcher testEnv
        (fun _ => responseIdContext) 0 0).1 id
        { buf := [], err := none, clock := 1 }).2.buf = "res-7".toList ∧
    (((confOf statusFormat (some 0) true).templateTagSwitcher testEnv
        (fun _ => testContext "/".toList 200) 0 0).1 id
        { buf := [], err := none, clock := 1 }).2.buf = [] :=
  ⟨(id_tag testEnv (worldOf (confOf statusFormat (some 0) true) richContext) 0 0
      { buf := [], err := none, clock := 1 } rfl).1 (by decide), by decide, by decide,
    by decide⟩

/-! ## the dynamic tag families -/

theorem switchCase_header (k : GoString) :
    switchCase ("header:".toList ++ k) = SwitchCase.header k := by
  simp [switchCase, timeUnix, timeUnixNano, timeRfc3339, timeRfc3339Nano, timeCustom, id,
    remoteIP, host, uri, method, path, protocol, referer, userAgent, status, tagErr, latency,
    latencyHuman, bytesIn, bytesOut, HasPrefix]

theorem switchCase_query (k : GoString) :
    switchCase ("query:".toList ++ k) = SwitchCase.query k := by
  simp [switchCase, timeUnix, timeUnixNano, timeRfc3339, timeRfc3339Nano, timeCustom, id,
    remoteIP, host, uri, method, path, protocol, referer, userAgent, status, tagErr, latency,
    latencyHuman, bytesIn, bytesOut, HasPrefix]

theorem switchCase_form (k : GoString) :
    switchCase ("form:".toList ++ k) = SwitchCase.form k := by
  simp [switchCase, timeUnix, timeUnixNano, timeRfc3339, timeRfc3339Nano, timeCustom, id,
    remoteIP, host, uri, method, path, protocol, referer, userAgent, status, tagErr, latency,
    latencyHuman, bytesIn, bytesOut, HasPrefix]

theorem switchCase_cookie (k : GoString) :
    switchCase ("cookie:".toList ++ k) = SwitchCase.cookie k := by
  simp [switchCase, timeUnix, timeUnixNano, timeRfc3339, timeRfc3339Nano, timeCustom, id,
    remoteIP, host, uri, method, path, protocol, referer, userAgent, status, tagErr, latency,
    latencyHuman, bytesIn, bytesOut, HasPrefix]

/-- C12: with a context bound and for every sub-key `k`, the empty one included, the tag
`header:` followed by `k` writes the request header named `k`, `query:` followed by `k`
the query parameter `k`, `form:` followed by `k` the form value `k`, and `cookie:`
followed by `k` the value of the cookie named `k`; the key handed to the lookup is
exactly `k`. When the cookie lookup fails the tag writes nothing, the buffer stays as it
was, and the tag function returns zero bytes and a nil error. -/
theorem dynamic_tags (env : Env) (w : World) (p : Nat) (startTime : Time) (k : GoString)
    (st : RenderState) (hb : w.conf.ctx = some p) :
    (w.conf.templateTagSwitcher env w.ctxs startTime w.clock).1 ("header:".toList ++ k) st =
      bufWrite st (Header.Get (w.ctxs p).request.Header k) ∧
    (w.conf.templateTagSwitcher env w.ctxs startTime w.clock).1 ("query:".toList ++ k) st =
      bufWrite st ((w.ctxs p).QueryParam k) ∧
    (w.conf.templateTagSwitcher env w.ctxs startTime w.clock).1 ("form:".toList ++ k) st =
      bufWrite st ((w.ctxs p).FormValue k) ∧
    (∀ cookie, (w.ctxs p).Cookie k = Except.ok cookie →
      (w.conf.templateTagSwitcher env w.ctxs startTime w.clock).1 ("cookie:".toList ++ k) st =
        ((len cookie.Value, none),
          { buf := st.buf ++ cookie.Value, err := none, clock := st.clock })) ∧
    (∀ e, (w.ctxs p).Cookie k = Except.error e →
      (w.conf.templateTagSwitcher env w.ctxs startTime w.clock).1 ("cookie:".toList ++ k) st =
        ((0, none), { buf := st.buf, err := some e, clock := st.clock })) := by
  rw [templateTagSwitcher_bound env w.conf w.ctxs startTime w.clock p hb]
  refine ⟨?_, ?_, ?_, fun cookie hc => ?_, fun e hc => ?_⟩
  · simp only [tagSwitch, switchCase_header]
  · simp only [tagSwitch, switchCase_query]
  · simp only [tagSwitch, switchCase_form]
  · simp only [tagSwitch, switchCase_cookie, hc, bufWrite]
  · simp only [tagSwitch, switchCase_cookie, hc]

/-- C12 on a request with a request-id header, the query parameter `q`, the form value
`name` and the cookie `sid`: the four families read them, and the cookie `missing`,
which the request does not carry, resolves to nothing with a nil error. -/
theorem dynamic_tags_witness :
    (((confOf statusFormat (some 0) true).templateTagSwitcher testEnv (fun _ => richContext)
        0 0).1 ("header:".toList ++ "x-request-id".toList)
        { buf := [], err := none, clock := 1 } =
      bufWrite { buf := [], err := none, clock := 1 }
        (Header.Get richContext.request.Header "x-request-id".toList)) ∧
    Header.Get richContext.request.Header "x-request-id".toList = "req-1".toList ∧
    (((confOf statusFormat (some 0) true).templateTagSwitcher testEnv (fun _ => richContext)
        0 0).1 "query:q".toList { buf := [], err := none, clock := 1 }).2.buf =
      "lean".toList ∧
    (((confOf statusFormat (some 0) true).templateTagSwitcher testEnv (fun _ => richContext)
        0 0).1 "form:name".toList { buf := [], err := none, clock := 1 }).2.buf =
      "ada".toList ∧
    (((confOf statusFormat (some 0) true).templateTagSwitcher testEnv (fun _ => richContext)
        0 0).1 "cookie:sid".toList { buf := [], err := none, clock := 1 }).2.buf =
      "abc".toList ∧
    ((confOf statusFormat (some 0) true).templateTagSwitcher testEnv (fun _ => richContext)
        0 0).1 "cookie:missing".toList { buf := "x".toList, err := none, clock := 1 } =
      ((0, none), { buf := "x".toList, err := some errNoCookie, clock := 1 }) ∧
    (((confOf statusFormat (some 0) true).templateTagSwitcher testEnv (fun _ => richContext)
        0 0).1 "header:".toList { buf := [], err := none, clock := 1 }).2.buf = [] :=
  ⟨(dynamic_tags testEnv (worldOf (confOf statusFormat (some 0) true) richContext) 0 0
      "x-request-id".toList { buf := [], err := none, clock := 1 } rfl).1,
    by decide, by decide, by decide, by decide, by decide, by decide⟩

/-! ## where the error of the error tag comes from -/

/-- One step of the tag switch leaves the error variable as it was unless the tag is a
cookie tag: an error held afterwards was held before or is the error of this tag's
failed cookie lookup. -/
theorem tagSwitch_err_origin (env : Env) (lc : LoggerConfig) (ctx : Context) (req : Request)
    (res : Response) (startTime stop : Time) (g : GoString) (st : RenderState) (x : GoError)
    (h : (tagSwitch env lc ctx req res startTime stop g st).2.err = some x) :
    st.err = some x ∨
      ∃ key, switchCase g = SwitchCase.cookie key ∧ ctx.Cookie key = Except.error x := by
  revert h
  unfold tagSwitch
  cases hsc : switchCase g <;> simp only [bufWrite, renderNow] <;> intro h
  case tagErr =>
    split at h <;> exact Or.inl h
  case cookie key =>
    right
    split at h
    · cases h
    · rename_i e he
      simp only [Option.some.injEq] at h
      subst h
      exact ⟨key, rfl, he⟩
  all_goals exact Or.inl h

/-- The `error` arm of the tag switch: the escaped message of the error variable, or
nothing. -/
theorem tagSwitch_tagErr (env : Env) (lc : LoggerConfig) (ctx : Context) (req : Request)
    (res : Response) (startTime stop : Time) (buf : GoString) (e : Option GoError)
    (clock : Nat) :
    tagSwitch env lc ctx req res startTime stop tagErr { buf := buf, err := e, clock := clock } =
      (match e with
       | some msg => ((len (jsonEscape msg), none),
           { buf := buf ++ jsonEscape msg, err := some msg, clock := clock })
       | none => ((0, none), { buf := buf, err := none, clock := clock })) := by
  cases e with
  | none => simp only [tagSwitch, switchCase_tagErr]
  | some msg => simp only [tagSwitch, switchCase_tagErr, bufWrite, slice_jsonMarshalString]

/-- A run that starts with the texts `tx` and the tags `tg` reaches what follows them in
one state, the same whatever follows: its buffer extends the first one, and its error
variable, when it holds an error, held it at the start (`P`) or got it from a failed
cookie lookup of one of the tags `tg`. -/
theorem executeLoop_prefix_err (env : Env) (lc : LoggerConfig) (ctx : Context)
    (req : Request) (res : Response) (startTime stop : Time) :
    ∀ (tx tg : List GoString) (P : GoError → Prop) (nn : Nat) (st : RenderState),
      tx.length = tg.length → (∀ x, st.err = some x → P x) →
      ∃ n2 st2 d, st2.buf = st.buf ++ d ∧
        (∀ x, st2.err = some x → P x ∨ ∃ g ∈ tg, ∃ key,
          switchCase g = SwitchCase.cookie key ∧ ctx.Cookie key = Except.error x) ∧
        ∀ (rest restg : List GoString), rest ≠ [] →
          executeLoop (tagSwitch env lc ctx req res startTime stop) (tx ++ rest) (tg ++ restg)
              nn st =
            executeLoop (tagSwitch env lc ctx req res startTime stop) rest restg n2 st2
  | [], [], P, nn, st, _, hP =>
    ⟨nn, st, [], by simp, fun x hx => Or.inl (hP x hx), fun _ _ _ => rfl⟩
  | [], _ :: _, P, nn, st, h, _ => by simp at h
  | _ :: _, [], P, nn, st, h, _ => by simp at h
  | t :: ts, g :: gs, P, nn, st, h, hP => by
    obtain ⟨d, hd⟩ := tagSwitch_grows env lc ctx req res startTime stop g
      { st with buf := st.buf ++ t }
    have hstep : ∀ x,
        (tagSwitch env lc ctx req res startTime stop g (bufWrite st t).2).2.err = some x →
        (P x ∨ ∃ key, switchCase g = SwitchCase.cookie key ∧ ctx.Cookie key = Except.error x) := by
      intro x hx
      rcases tagSwitch_err_origin env lc ctx req res startTime stop g _ x hx with h1 | h1
      · exact Or.inl (hP x h1)
      · exact Or.inr h1
    obtain ⟨n2, st2, d2, hb, hinv, he⟩ := executeLoop_prefix_err env lc ctx req res startTime
      stop ts gs
      (fun x => P x ∨ ∃ key, switchCase g = SwitchCase.cookie key ∧
        ctx.Cookie key = Except.error x)
      (nn + len t + (tagSwitch env lc ctx req res startTime stop g (bufWrite st t).2).1.1)
      (tagSwitch env lc ctx req res startTime stop g (bufWrite st t).2).2
      (by simpa using h) hstep
    refine ⟨n2, st2, t ++ d ++ d2, ?_, ?_, ?_⟩
    · rw [hb]
      simp only [bufWrite]
      rw [hd]
      simp
    · intro x hx
      rcases hinv x hx with (h1 | ⟨key, h1, h2⟩) | ⟨g1, hg1, key, h1, h2⟩
      · exact Or.inl h1
      · exact Or.inr ⟨g, List.mem_cons_self _ _, key, h1, h2⟩
      · exact Or.inr ⟨g1, List.mem_cons_of_mem _ hg1, key, h1, h2⟩
    · intro rest restg hrest
      rw [← he rest restg hrest]
      cases hts : ts ++ rest with
      | nil => simp [hrest] at hts
      | cons t2 ts2 =>
        simp [executeLoop, bufWrite, tagSwitch_noErr, hts]

/-- What `DefaultLogger` returns does not depend on what was written to the log output
or handed to `c.Error` before. -/
theorem DefaultLogger_ignores_log (env : Env) (w : World) (startTime : Time)
    (os : List GoString) (es : List (Nat × GoError)) :
    (DefaultLogger env { w with output := os, errors := es } startTime).map (fun r => r.1) =
      (DefaultLogger env w startTime).map (fun r => r.1) := by
  unfold DefaultLogger
  simp only []
  cases w.conf.template.ExecuteFunc
      (w.conf.templateTagSwitcher env w.ctxs startTime w.clock).1
      { buf := [], err := none,
        clock := (w.conf.templateTagSwitcher env w.ctxs startTime w.clock).2 } with
  | none => rfl
  | some r =>
    simp only []
    cases r.1.2 <;> rfl

/-- With a tag function that never fails, a run that ends returns a nil error. -/
theorem executeLoop_result_noErr (f : TagFunc) (hf : ∀ g st, (f g st).1.2 = none) :
    ∀ (texts tags : List GoString) (nn : Nat) (st : RenderState)
      (r : Nat × Option GoError) (st1 : RenderState),
      executeLoop f texts tags nn st = some (r, st1) → r.2 = none
  | [], tags, nn, st, r, st1, h => by simp [executeLoop] at h
  | [last], tags, nn, st, r, st1, h => by
    simp only [executeLoop, bufWrite, Option.some.injEq, Prod.mk.injEq] at h
    rw [← h.1]
  | t :: t2 :: ts, [], nn, st, r, st1, h => by simp [executeLoop, bufWrite] at h
  | t :: t2 :: ts, g :: gs, nn, st, r, st1, h => by
    simp only [executeLoop, bufWrite, hf] at h
    exact executeLoop_result_noErr f hf (t2 :: ts) gs _ _ r st1 h

theorem ite_eq_cases {α : Type} (c : Prop) [Decidable c] (a b x : α)
    (h : (if c then a else b) = x) : (c ∧ a = x) ∨ (¬ c ∧ b = x) := by
  by_cases hc : c
  · rw [if_pos hc] at h
    exact Or.inl ⟨hc, h⟩
  · rw [if_neg hc] at h
    exact Or.inr ⟨hc, h⟩

/-- Only a tag that starts with `cookie:` selects the cookie arm, and the key is the text
after it. -/
theorem switchCase_cookie_inv (g key : GoString)
    (h : switchCase g = SwitchCase.cookie key) : g = "cookie:".toList ++ key := by
  unfold switchCase at h
  iterate 23
    replace h := ((ite_eq_cases _ _ _ _ h).resolve_left (fun hh => nomatch hh.2)).2
  rcases ite_eq_cases _ _ _ _ h with ⟨hp, h1⟩ | ⟨_, h1⟩
  · simp only [SwitchCase.cookie.injEq] at h1
    obtain ⟨t, ht⟩ := (HasPrefix_iff _ _).mp hp
    rw [← h1, ← ht]
    simp
  · cases h1

/-! ## the handler's error -/

/-- The after-function of `BaseLogger`, with a template built by `New`: under the
emission condition it appends the rendered line to the log output and advances the clock
count, otherwise it leaves the world as it is. -/
theorem afterHook_cases (env : Env) (h : HookClosure) (w : World) (fmt : GoString)
    (ht : New fmt startTag endTag = some w.conf.template) :
    (((w.ctxs h.c).response.Status ≠ 200 ∨
        "localhost".toList <:+: (w.ctxs h.c).request.Host) →
      ∃ line k, DefaultLogger env w h.startTime = some ((line, none), { w with clock := k }) ∧
        afterHook env h w = some { w with clock := k, output := w.output ++ [line] }) ∧
    (¬ ((w.ctxs h.c).response.Status ≠ 200 ∨
        "localhost".toList <:+: (w.ctxs h.c).request.Host) → afterHook env h w = some w) := by
  obtain ⟨line, k, hd⟩ := DefaultLogger_total env w h.startTime fmt ht
  constructor
  · intro hc
    have hb := (emission_condition _ _).mpr hc
    refine ⟨line, k, hd, ?_⟩
    unfold afterHook
    simp only [hb, if_true, hd]
  · intro hc
    have hb : ¬ ((decide ((w.ctxs h.c).response.Status ≠ StatusOK) ||
        Contains (w.ctxs h.c).request.Host "localhost".toList) = true) :=
      fun hb => hc ((emission_condition _ _).mp hb)
    simp only [afterHook]
    rw [if_neg hb]

/-- The after-function changes neither the configuration, nor the contexts, nor what
was handed to `c.Error`. -/
theorem afterHook_frame (env : Env) (h : HookClosure) (w : World) (fmt : GoString)
    (ht : New fmt startTag endTag = some w.conf.template) :
    ∃ w1, afterHook env h w = some w1 ∧ w1.conf = w.conf ∧ w1.ctxs = w.ctxs ∧
      w1.errors = w.errors := by
  by_cases hc : (w.ctxs h.c).response.Status ≠ 200 ∨
      "localhost".toList <:+: (w.ctxs h.c).request.Host
  · obtain ⟨line, k, _, h2⟩ := (afterHook_cases env h w fmt ht).1 hc
    exact ⟨_, h2, rfl, rfl, rfl⟩
  · exact ⟨w, (afterHook_cases env h w fmt ht).2 hc, rfl, rfl, rfl⟩

theorem runAfterFuncs_total (env : Env) (fmt : GoString) :
    ∀ (hs : List HookClosure) (w : World), New fmt startTag endTag = some w.conf.template →
      ∃ w1, runAfterFuncs env hs w = some w1 ∧ w1.conf = w.conf ∧ w1.ctxs = w.ctxs ∧
        w1.errors = w.errors
  | [], w, _ => ⟨w, rfl, rfl, rfl, rfl⟩
  | h :: hs, w, ht => by
    obtain ⟨w1, h1, hconf, hctxs, herr⟩ := afterHook_frame env h w fmt ht
    obtain ⟨w2, h2, hconf2, hctxs2, herr2⟩ := runAfterFuncs_total env fmt hs w1
      (by rw [hconf]; exact ht)
    refine ⟨w2, ?_, by rw [hconf2, hconf], by rw [hctxs2, hctxs], by rw [herr2, herr]⟩
    simp only [runAfterFuncs, h1, h2]

theorem runAfterFuncs_append (env : Env) (h : HookClosure) :
    ∀ (hs : List HookClosure) (w : World),
      runAfterFuncs env (hs ++ [h]) w = (runAfterFuncs env hs w).bind (afterHook env h)
  | [], w => by
    simp only [List.nil_append, runAfterFuncs, Option.some_bind]
    cases afterHook env h w <;> rfl
  | h1 :: hs, w => by
    simp only [List.cons_append, runAfterFuncs]
    cases afterHook env h1 w with
    | none => rfl
    | some w1 => exact runAfterFuncs_append env h hs w1

/-- `Context.JSON` on a response not yet committed: the response is committed at `code`,
or at 200 when `code` is 0, the bytes of the body are counted, and the after-functions
run. -/
theorem cJSON_uncommitted (env : Env) (code : Int) (body : GoString) (c : Nat) (w : World)
    (hc : (w.ctxs c).response.Committed = false) :
    cJSON env code body c w =
      (runAfterFuncs env (w.ctxs c).response.afterFuncs
        (committedAt w c (if code = 0 then 200 else code) (len body))).map
        (fun w1 => (none, w1)) := by
  simp only [cJSON, responseWrite, responseWriteHeader, Function.update_same, hc,
    Bool.false_eq_true, if_false, StatusOK, committedAt, Function.update_idem]
  generalize runAfterFuncs env _ _ = r
  cases r <;> rfl

/-- C13: `BaseLogger` registers its after-function on the response of `c` before the
wrapped handler runs. When the handler returns an error, `c.Error` is called with that
same error, once, whatever the error handler of the host; when the handler returns nil
nothing reaches `c.Error`. With echo's default error handler, a handler that failed
without committing the response and without touching the after-functions, on a request
other than `HEAD`, gets its error response written inside `BaseLogger`: the response is
committed at the error's status (200 for code 0), the after-functions registered before
run, and then the after-function of this request is evaluated on the finished response,
so a line is logged exactly when that status is not 200 or the host contains `localhost`.
The error is recorded once and the after-function is still registered afterwards. -/
theorem BaseLogger_forwards_error (env : Env) (codeOf : GoError → Int)
    (bodyOf : GoError → GoString) (middlewareFunc : HandlerFunc → HandlerFunc)
    (next : HandlerFunc) (c : Nat) (w w1 : World) (err : GoError) (fmt : GoString)
    (hh : middlewareFunc next c
        (After (SetContext { w with clock := w.clock + 1 } c) c
          { c := c, startTime := env.now w.clock }) = some (some err, w1))
    (hcommit : (w1.ctxs c).response.Committed = false)
    (hhooks : (w1.ctxs c).response.afterFuncs =
      (w.ctxs c).response.afterFuncs ++ [{ c := c, startTime := env.now w.clock }])
    (hhead : (w1.ctxs c).request.Method ≠ "HEAD".toList)
    (ht : New fmt startTag endTag = some w1.conf.template) :
    ((After (SetContext { w with clock := w.clock + 1 } c) c
        { c := c, startTime := env.now w.clock }).ctxs c).response.afterFuncs =
      (w.ctxs c).response.afterFuncs ++ [{ c := c, startTime := env.now w.clock }] ∧
    (∀ eh : HTTPErrorHandler, BaseLogger env eh middlewareFunc next c w =
      (eh err c { w1 with errors := w1.errors ++ [(c, err)] }).map (fun w2 => (none, w2))) ∧
    (∀ (eh : HTTPErrorHandler) (mf2 : HandlerFunc → HandlerFunc) (next2 : HandlerFunc)
        (w2 : World),
      mf2 next2 c (After (SetContext { w with clock := w.clock + 1 } c) c
          { c := c, startTime := env.now w.clock }) = some (none, w2) →
      BaseLogger env eh mf2 next2 c w = some (none, w2)) ∧
    ∃ wH wF,
      runAfterFuncs env (w.ctxs c).response.afterFuncs
          (committedAt { w1 with errors := w1.errors ++ [(c, err)] } c
            (if codeOf err = 0 then 200 else codeOf err) (len (bodyOf err))) = some wH ∧
      afterHook env { c := c, startTime := env.now w.clock } wH = some wF ∧
      BaseLogger env (DefaultHTTPErrorHandler env codeOf bodyOf) middlewareFunc next c w =
        some (none, wF) ∧
      wF.errors = w1.errors ++ [(c, err)] ∧
      (wF.ctxs c).response.afterFuncs =
        (w.ctxs c).response.afterFuncs ++ [{ c := c, startTime := env.now w.clock }] ∧
      (wH.ctxs c).response.Status = (if codeOf err = 0 then 200 else codeOf err) ∧
      (wH.ctxs c).request.Host = (w1.ctxs c).request.Host ∧
      (((if codeOf err = 0 then 200 else codeOf err) ≠ 200 ∨
          "localhost".toList <:+: (w1.ctxs c).request.Host) →
        ∃ line k, DefaultLogger env wH (env.now w.clock) =
            some ((line, none), { wH with clock := k }) ∧
          wF = { wH with clock := k, output := wH.output ++ [line] }) ∧
      (¬ ((if codeOf err = 0 then 200 else codeOf err) ≠ 200 ∨
          "localhost".toList <:+: (w1.ctxs c).request.Host) → wF = wH) := by
  have hreg : ((After (SetContext { w with clock := w.clock + 1 } c) c
        { c := c, startTime := env.now w.clock }).ctxs c).response.afterFuncs =
      (w.ctxs c).response.afterFuncs ++ [{ c := c, startTime := env.now w.clock }] := by
    simp [After, SetContext]
  have hgen : ∀ eh : HTTPErrorHandler, BaseLogger env eh middlewareFunc next c w =
      (eh err c { w1 with errors := w1.errors ++ [(c, err)] }).map (fun w2 => (none, w2)) := by
    intro eh
    simp only [BaseLogger, hh, cError]
    cases eh err c { w1 with errors := w1.errors ++ [(c, err)] } <;> rfl
  refine ⟨hreg, hgen, fun eh mf2 next2 w2 h2 => by simp only [BaseLogger, h2], ?_⟩
  -- the default error handler writes the error response
  have hcom : (({ w1 with errors := w1.errors ++ [(c, err)] } : World).ctxs c).response.Committed
      = false := hcommit
  have hdef : DefaultHTTPErrorHandler env codeOf bodyOf err c
      { w1 with errors := w1.errors ++ [(c, err)] } =
      (runAfterFuncs env (w.ctxs c).response.afterFuncs
        (committedAt { w1 with errors := w1.errors ++ [(c, err)] } c
          (if codeOf err = 0 then 200 else codeOf err) (len (bodyOf err)))).bind
        (afterHook env { c := c, startTime := env.now w.clock }) := by
    simp only [DefaultHTTPErrorHandler, hcommit, Bool.false_eq_true, if_false, if_neg hhead,
      cJSON_uncommitted env _ _ c _ hcom, hhooks, runAfterFuncs_append]
    generalize (runAfterFuncs env (w.ctxs c).response.afterFuncs _).bind _ = r
    cases r <;> rfl
  obtain ⟨wH, hH, hHconf, hHctxs, hHerr⟩ := runAfterFuncs_total env fmt
    (w.ctxs c).response.afterFuncs
    (committedAt { w1 with errors := w1.errors ++ [(c, err)] } c
      (if codeOf err = 0 then 200 else codeOf err) (len (bodyOf err))) ht
  have htH : New fmt startTag endTag = some wH.conf.template := by
    rw [hHconf]
    exact ht
  obtain ⟨wF, hF, hFconf, hFctxs, hFerr⟩ := afterHook_frame env
    { c := c, startTime := env.now w.clock } wH fmt htH
  have hctx : wH.ctxs c = (committedAt { w1 with errors := w1.errors ++ [(c, err)] } c
      (if codeOf err = 0 then 200 else codeOf err) (len (bodyOf err))).ctxs c := by
    rw [hHctxs]
  have hstatus : (wH.ctxs c).response.Status = (if codeOf err = 0 then 200 else codeOf err) := by
    rw [hctx]
    simp [committedAt]
  have hhost : (wH.ctxs c).request.Host = (w1.ctxs c).request.Host := by
    rw [hctx]
    simp [committedAt]
  have hcases := afterHook_cases env { c := c, startTime := env.now w.clock } wH fmt htH
  simp only [hstatus, hhost] at hcases
  refine ⟨wH, wF, hH, hF, ?_, ?_, ?_, hstatus, hhost, fun hc => ?_, fun hc => ?_⟩
  · rw [hgen, hdef, hH]
    simp only [Option.some_bind, hF, Option.map_some']
  · rw [hFerr, hHerr]
    rfl
  · rw [hFctxs, hctx]
    simp [committedAt, hhooks]
  · obtain ⟨line, k, hd, ha⟩ := hcases.1 hc
    rw [ha] at hF
    exact ⟨line, k, hd, (Option.some.inj hF).symm⟩
  · have ha := hcases.2 hc
    rw [ha] at hF
    exact (Option.some.inj hF).symm

/-- C13 on a handler that returns the error `boom` without writing, under echo's default
error handler: the error reaches `c.Error` once, the host answers 500 inside
`BaseLogger`, and the after-function logs that response. For comparison, handlers that
return nil after answering 404 or 200 hand nothing to `c.Error`; the first is logged, the
second is not. -/
theorem BaseLogger_forwards_error_witness :
    (∃ wH wF,
      afterHook testEnv { c := 0, startTime := testEnv.now 0 } wH = some wF ∧
      BaseLogger testEnv (testErrorHandler testEnv) (fun h => h) failingHandler 0
          (worldOf (confOf statusFormat none true) (testContext "/".toList 0)) =
        some (none, wF) ∧
      wF.errors = [(0, "boom".toList)] ∧
      (wH.ctxs 0).response.Status = 500) ∧
    (BaseLogger testEnv (testErrorHandler testEnv) (fun h => h) failingHandler 0
        (worldOf (confOf statusFormat none true) (testContext "/".toList 0))).map
        (fun r => (r.1, r.2.errors, r.2.output)) =
      some (none, [(0, "boom".toList)], ["\x7b\"status\":500\x7d".toList]) ∧
    (BaseLogger testEnv (testErrorHandler testEnv) (fun h => h) (writeResponse testEnv 404) 0
        (worldOf (confOf statusFormat none true) (testContext "/".toList 0))).map
        (fun r => (r.1, r.2.errors, r.2.output)) =
      some (none, [], ["\x7b\"status\":404\x7d".toList]) ∧
    (BaseLogger testEnv (testErrorHandler testEnv) (fun h => h) (writeResponse testEnv 200) 0
        (worldOf (confOf statusFormat none true) (testContext "/".toList 0))).map
        (fun r => (r.1, r.2.errors, r.2.output)) = some (none, [], []) := by
  refine ⟨?_, by rfl, by rfl, by rfl⟩
  obtain ⟨_, _, _, wH, wF, _, h2, h3, h4, _, h6, _⟩ := BaseLogger_forwards_error testEnv
    (fun _ => 500) (fun _ => "\x7b\"message\":\"Internal Server Error\"\x7d\n".toList)
    (fun h => h) failingHandler 0
    (worldOf (confOf statusFormat none true) (testContext "/".toList 0))
    (After (SetContext
      { worldOf (confOf statusFormat none true) (testContext "/".toList 0) with clock := 1 } 0)
      0 { c := 0, startTime := testEnv.now 0 })
    "boom".toList statusFormat rfl (by rfl) (by rfl) (by decide) (by decide)
  exact ⟨wH, wF, h2, h3, h4, h6⟩

/-! ## the error tag in a render -/

/-- C14: in a render with a context bound, take an `error` tag of the template, between
the literals `a` and `b`, with the texts `tx` and the tags `tg` before it. The run of the
template up to that tag, from the fresh state of the render (empty buffer, error variable
nil), ends in one state `stPre`; resolved there, the `error` tag writes `E`; and what
`DefaultLogger` returns is the run continued from the state the tag left, so the line
starts with the buffer of `stPre`, then `E`, then `b`. If `E` is not empty, one of the
tags before is `cookie:` followed by a key whose lookup failed in this render, and `E` is
the escaped message of that lookup error. If every cookie tag before was found, and so
also if there is none, `E` is empty. The line is the same whatever was handed to
`c.Error` or written to the log before the render, so an error returned by the wrapped
handler never shows. -/
theorem error_tag_only_from_cookie (env : Env) (w : World) (p : Nat) (startTime : Time)
    (fmt : GoString) (tx tg tx2 tg2 : List GoString) (a b : GoString)
    (os : List GoString) (es : List (Nat × GoError))
    (hb : w.conf.ctx = some p)
    (ht : New fmt startTag endTag = some w.conf.template)
    (htx : w.conf.template.texts = tx ++ (a :: b :: tx2))
    (htg : w.conf.template.tags = tg ++ (tagErr :: tg2))
    (hlen : tx.length = tg.length) :
    ∃ n stPre E,
      executeLoop (w.conf.templateTagSwitcher env w.ctxs startTime w.clock).1 (tx ++ [a]) tg 0
          { buf := [], err := none, clock := w.clock + 1 } = some ((n, none), stPre) ∧
      (w.conf.templateTagSwitcher env w.ctxs startTime w.clock).1 tagErr stPre =
        ((len E, none), { stPre with buf := stPre.buf ++ E }) ∧
      DefaultLogger env w startTime =
        (executeLoop (w.conf.templateTagSwitcher env w.ctxs startTime w.clock).1 (b :: tx2) tg2
          (n + len E) { stPre with buf := stPre.buf ++ E }).map
          (fun r => ((r.2.buf, none), { w with clock := r.2.clock })) ∧
      (∃ line k post,
        DefaultLogger env w startTime = some ((line, none), { w with clock := k }) ∧
        line = stPre.buf ++ E ++ b ++ post ∧
        (DefaultLogger env { w with output := os, errors := es } startTime).map
          (fun r => r.1) = some (line, none)) ∧
      (E ≠ [] → ∃ key e, "cookie:".toList ++ key ∈ tg ∧
        (w.ctxs p).Cookie key = Except.error e ∧ E = jsonEscape e) ∧
      ((∀ key, "cookie:".toList ++ key ∈ tg →
          ∃ cookie, (w.ctxs p).Cookie key = Except.ok cookie) → E = []) := by
  have hsw := templateTagSwitcher_bound env w.conf w.ctxs startTime w.clock p hb
  obtain ⟨line, k, hd⟩ := DefaultLogger_total env w startTime fmt ht
  have hlog : (DefaultLogger env { w with output := os, errors := es } startTime).map
      (fun r => r.1) = some (line, none) := by
    rw [DefaultLogger_ignores_log, hd]
    rfl
  have hne : w.conf.template.texts ≠ [] := by
    rw [htx]
    simp
  obtain ⟨n2, st2, d, _, hinv, hall⟩ := executeLoop_prefix_err env w.conf (w.ctxs p)
    (w.ctxs p).request (w.ctxs p).response startTime (env.now w.clock)
    tx tg (fun _ => False) 0
    { buf := [], err := none, clock := w.clock + 1 } hlen (fun x hx => by cases hx)
  obtain ⟨buf2, err2, clock2⟩ := st2
  -- the run up to the tag
  have hpre := hall [a] [] (by simp)
  simp only [List.append_nil, executeLoop, bufWrite] at hpre
  -- the whole run
  have hrun := hall (a :: b :: tx2) (tagErr :: tg2) (by simp)
  simp only [executeLoop, bufWrite, tagSwitch_tagErr] at hrun
  -- the render
  have hdl : DefaultLogger env w startTime =
      (match executeLoop (tagSwitch env w.conf (w.ctxs p) (w.ctxs p).request
          (w.ctxs p).response startTime (env.now w.clock)) (tx ++ a :: b :: tx2)
          (tg ++ tagErr :: tg2) 0 { buf := [], err := none, clock := w.clock + 1 } with
        | none => none
        | some r =>
          match r.1.2 with
          | some e => some (([], some e), { w with clock := r.2.clock })
          | none => some ((r.2.buf, none), { w with clock := r.2.clock })) := by
    unfold DefaultLogger
    rw [hsw]
    simp only [Template.ExecuteFunc, if_neg hne]
    rw [htx, htg]
  rw [hsw]
  simp only []
  have hcont : ∀ (nn : Nat) (st : RenderState),
      executeLoop (tagSwitch env w.conf (w.ctxs p) (w.ctxs p).request (w.ctxs p).response
          startTime (env.now w.clock)) (tx ++ a :: b :: tx2) (tg ++ tagErr :: tg2) 0
          { buf := [], err := none, clock := w.clock + 1 } =
        executeLoop (tagSwitch env w.conf (w.ctxs p) (w.ctxs p).request (w.ctxs p).response
          startTime (env.now w.clock)) (b :: tx2) tg2 nn st →
      DefaultLogger env w startTime =
        (executeLoop (tagSwitch env w.conf (w.ctxs p) (w.ctxs p).request (w.ctxs p).response
          startTime (env.now w.clock)) (b :: tx2) tg2 nn st).map
          (fun r => ((r.2.buf, none), { w with clock := r.2.clock })) ∧
      ∃ post, line = st.buf ++ b ++ post := by
    intro nn st hrn
    rw [hdl, hrn]
    rw [hdl, hrn] at hd
    cases hex : executeLoop (tagSwitch env w.conf (w.ctxs p) (w.ctxs p).request
        (w.ctxs p).response startTime (env.now w.clock)) (b :: tx2) tg2 nn st with
    | none =>
      rw [hex] at hd
      cases hd
    | some r =>
      obtain ⟨r1, st3⟩ := r
      have hr := executeLoop_result_noErr _ (tagSwitch_noErr _ _ _ _ _ _ _) _ _ _ _ _ _ hex
      obtain ⟨d3, hd3⟩ := executeLoop_grows _ (tagSwitch_grows _ _ _ _ _ _ _) _ _ _ _ _ _ hex
      rw [hex] at hd
      simp only [hr, Option.some.injEq, Prod.mk.injEq, List.headD_cons] at hd hd3
      refine ⟨by simp only [hr, Option.map_some'], d3, ?_⟩
      rw [← hd.1.1, hd3]
  cases err2 with
  | none =>
    simp only [] at hrun
    obtain ⟨hdef, post, hpost⟩ := hcont _ _ hrun
    refine ⟨n2 + len a, { buf := buf2 ++ a, err := none, clock := clock2 }, [], hpre, ?_, ?_,
      ⟨line, k, post, hd, ?_, hlog⟩, fun h => absurd rfl h, fun _ => rfl⟩
    · simp only [tagSwitch_tagErr, List.append_nil]
      rfl
    · simpa using hdef
    · simpa using hpost
  | some e =>
    simp only [] at hrun
    obtain ⟨hdef, post, hpost⟩ := hcont _ _ hrun
    have horigin : ∃ key, "cookie:".toList ++ key ∈ tg ∧
        (w.ctxs p).Cookie key = Except.error e := by
      rcases hinv e rfl with h | ⟨g, hg, key, hsc, hck⟩
      · exact h.elim
      · rw [switchCase_cookie_inv g key hsc] at hg
        exact ⟨key, hg, hck⟩
    obtain ⟨key, hg, hck⟩ := horigin
    refine ⟨n2 + len a, { buf := buf2 ++ a, err := some e, clock := clock2 }, jsonEscape e,
      hpre, ?_, hdef, ⟨line, k, post, hd, hpost, hlog⟩,
      fun _ => ⟨key, e, hg, hck, rfl⟩, fun hok => ?_⟩
    · simp only [tagSwitch_tagErr]
    · obtain ⟨cookie, hc⟩ := hok key hg
      rw [hc] at hck
      cases hck

/-- C14 on the format with a cookie tag before the `error` tag, on the request of the
tests, which carries no cookie: the run up to the `error` tag ends with the text before
the tag in the buffer and the lookup error in the error variable, and what the tag writes
is the message of that error. The same format on a request that carries the cookie, and
the two tags next to each other, render as shown; with the `error` tag alone, a handler
that returns the error `boom` is logged with an empty `error` field. -/
theorem error_tag_only_from_cookie_witness :
    (∃ n stPre E,
      executeLoop ((confOf cookieErrorFormat (some 0) true).templateTagSwitcher testEnv
          (fun _ => testContext "/".toList 500) 0 0).1 (["c=".toList] ++ [";e=\"".toList])
          ["cookie:sid".toList] 0 { buf := [], err := none, clock := 0 + 1 } =
        some ((n, none), stPre) ∧
      stPre = { buf := "c=;e=\"".toList, err := some errNoCookie, clock := 1 } ∧
      E = "http: named cookie not present".toList ∧
      DefaultLogger testEnv
          (worldOf (confOf cookieErrorFormat (some 0) true) (testContext "/".toList 500)) 0 =
        (executeLoop ((confOf cookieErrorFormat (some 0) true).templateTagSwitcher testEnv
            (fun _ => testContext "/".toList 500) 0 0).1 ("\"".toList :: []) []
          (n + len E) { stPre with buf := stPre.buf ++ E }).map
          (fun r => ((r.2.buf, none),
            { worldOf (confOf cookieErrorFormat (some 0) true) (testContext "/".toList 500) with
              clock := r.2.clock }))) ∧
    (DefaultLogger testEnv
        (worldOf (confOf cookieErrorFormat (some 0) true) (testContext "/".toList 500))
        0).map (fun r => r.1) =
      some ("c=;e=\"http: named cookie not present\"".toList, none) ∧
    (DefaultLogger testEnv (worldOf (confOf cookieErrorFormat (some 0) true) richContext)
        0).map (fun r => r.1) = some ("c=abc;e=\"\"".toList, none) ∧
    (DefaultLogger testEnv
        (worldOf (confOf adjacentFormat (some 0) true) (testContext "/".toList 500))
        0).map (fun r => r.1) = some ("http: named cookie not present".toList, none) ∧
    (BaseLogger testEnv (testErrorHandler testEnv) (fun h => h) failingHandler 0
        (worldOf (confOf errorFormat none true) (testContext "/".toList 0))).map
        (fun r => (r.2.errors, r.2.output)) =
      some ([(0, "boom".toList)], ["e=\"\"".toList]) := by
  refine ⟨?_, by decide, by decide, by decide, by rfl⟩
  obtain ⟨n, stPre, E, h1, h2, h3, _⟩ := error_tag_only_from_cookie testEnv
    (worldOf (confOf cookieErrorFormat (some 0) true) (testContext "/".toList 500)) 0 0
    cookieErrorFormat ["c=".toList] ["cookie:sid".toList] [] [] ";e=\"".toList "\"".toList
    [] [(0, "boom".toList)] rfl (by decide) (by decide) (by decide) (by decide)
  have h1c : executeLoop ((confOf cookieErrorFormat (some 0) true).templateTagSwitcher testEnv
        (fun _ => testContext "/".toList 500) 0 0).1 (["c=".toList] ++ [";e=\"".toList])
        ["cookie:sid".toList] 0 { buf := [], err := none, clock := 0 + 1 } =
      some ((6, none), { buf := "c=;e=\"".toList, err := some errNoCookie, clock := 1 }) := by
    decide
  have hst : stPre = { buf := "c=;e=\"".toList, err := some errNoCookie, clock := 1 } := by
    have h := h1.symm.trans h1c
    simp only [Option.some.injEq, Prod.mk.injEq] at h
    exact h.2
  subst hst
  have h2c : ((confOf cookieErrorFormat (some 0) true).templateTagSwitcher testEnv
        (fun _ => testContext "/".toList 500) 0 0).1 tagErr
        { buf := "c=;e=\"".toList, err := some errNoCookie, clock := 1 } =
      ((30, none), { buf := "c=;e=\"".toList ++ "http: named cookie not present".toList,
                     err := some errNoCookie, clock := 1 }) := by
    decide
  have hE : E = "http: named cookie not present".toList := by
    have h := congrArg (fun r => r.2.buf) (h2.symm.trans h2c)
    simpa using h
  exact ⟨n, _, E, h1, rfl, hE, h3⟩

end EchoBaseLogger
